import Mathlib

/-!
Shallow embedding of the profile engine in `ai-memory-database/main.py`
(`CouchbaseMemory` plus the tool-layer functions exposed to the agent).

Modelling conventions:
* JSON-like documents are `JVal`; Python `dict`s are association lists with
  the keys kept in insertion order, exactly as CPython dicts behave.
* The Couchbase collection is a list of `(doc_id, document)` pairs; `get`
  is lookup (absence models `DocumentNotFoundException`) and `upsert` is
  insert-or-overwrite.
* Every call to `datetime.now()` consumes one tick of a clock counter; the
  tick index is rendered to a string by an oracle.  `isoformat()` readings
  are `tau k` and the `strftime` reading used for task ids is `sigma k`,
  where `k` is the global tick counter at that call.  Two reads of a real
  clock may or may not render equally; the oracles keep that freedom.
* A Python run that raises an uncaught exception (for example a `TypeError`
  from subscripting a non-dict where the code expects a dict) is modelled
  as `Option.none`; every such `none` branch below corresponds to a raise
  that happens before any write, which is what the original does there.
* The implicit `user_id` that the source attaches to the tool functions
  with `setattr`/`getattr` is passed as an explicit `u` argument.
-/

inductive JVal where
  | null
  | jb (v : Bool)
  | jn (v : Int)
  | js (v : String)
  | jarr (items : List JVal)
  | jobj (fields : List (String × JVal))

open JVal

/-- Lookup in a Python-dict-like association list (first binding wins;
CPython dicts never hold a key twice). -/
def dlookup : List (String × JVal) → String → Option JVal
  | [], _ => none
  | (k, v) :: rest, key => if k = key then some v else dlookup rest key

/-- Python `d[key] = val`: overwrite in place when the key is present,
otherwise append the new binding at the end. -/
def dinsert : List (String × JVal) → String → JVal → List (String × JVal)
  | [], key, val => [(key, val)]
  | (k, v) :: rest, key, val =>
    if k = key then (k, val) :: rest else (k, v) :: dinsert rest key val

/-- Python `old.update(new)`: every binding of `new` is written into `old`
in order. -/
def dupdate (old new : List (String × JVal)) : List (String × JVal) :=
  new.foldl (fun acc kv => dinsert acc kv.1 kv.2) old

/-- Python `d.get(key, default)`. -/
def dget (d : List (String × JVal)) (key : String) (default : JVal) : JVal :=
  (dlookup d key).getD default

/-- Python truthiness of a JSON value (`if value:`). -/
def truthy : JVal → Bool
  | JVal.null => false
  | jb v => v
  | jn v => v != 0
  | js v => v ≠ ""
  | jarr items => !items.isEmpty
  | jobj fields => !fields.isEmpty

/-- Python `value == some_string` where `value` came out of a JSON document:
true exactly when `value` is that string (`None == s` and `3 == s` are
`False` in Python). -/
def jeqStr : Option JVal → String → Bool
  | some (js x), s => x = s
  | _, _ => false

/-- Python `item in lst` for a string `item` and a JSON list `lst`. -/
def memS : List JVal → String → Bool
  | [], _ => false
  | js x :: rest, s => x = s || memS rest s
  | _ :: rest, s => memS rest s

/-- Occurrences of the string `s` in a JSON list. -/
def countS : List JVal → String → Nat
  | [], _ => 0
  | js x :: rest, s => (if x = s then 1 else 0) + countS rest s
  | _ :: rest, s => countS rest s

/-- State threaded through every engine call: the key-value store behind
the Couchbase collection, and the clock tick counter (how many
`datetime.now()` calls have happened so far). -/
structure Sys where
  store : List (String × JVal)
  clk : Nat

/-- `CouchbaseMemory._doc_id`. -/
def docId (u : String) : String := "user::" ++ u

/-- `collection.get`, with `none` for `DocumentNotFoundException`. -/
def storeGet (st : List (String × JVal)) (key : String) : Option JVal :=
  dlookup st key

/-- `collection.upsert`. -/
def storeUpsert (st : List (String × JVal)) (key : String) (v : JVal) :
    List (String × JVal) :=
  dinsert st key v

/-- The `default_schema` literal built at the top of
`initialize_user_schema`; `t1`/`t2` are the two `datetime.now().isoformat()`
readings taken for `created_at` and `last_updated`. -/
def default_schema (t1 t2 : String) : List (String × JVal) :=
  [("personal_info", jobj [("name", js ""), ("age", jn 0), ("domain", js "")]),
   ("daily_routine", jobj
     [("meal_timings", jobj
        [("breakfast", js ""), ("lunch", js ""), ("dinner", js "")]),
      ("working_hours", jobj
        [("start", js ""), ("end", js ""), ("timezone", js "")]),
      ("workout_preferences", jarr [])]),
   ("habits_and_behaviors", jobj
     [("procrastination_habits", jarr []), ("known_blockers", jarr [])]),
   ("task_tracking", jobj
     [("current_tasks", jarr []), ("completed_tasks", jarr [])]),
   ("productivity_insights", jobj
     [("best_focus_times", jarr []),
      ("energy_levels", jobj
        [("morning", js ""), ("afternoon", js ""), ("evening", js "")]),
      ("habit_streaks", jobj
        [("workout_streak_days", jn 0), ("task_completion_streak", jn 0)])]),
   ("preferences", jobj
     [("notifications", jobj
        [("reminder_frequency", js ""), ("preferred_channels", jarr [])]),
      ("motivation_style", js "")]),
   ("metadata", jobj
     [("created_at", js t1), ("last_updated", js t2), ("version", jn 1)])]

/-- The metadata object the mutation paths backfill when a fetched document
has no `metadata` key (the literal at lines 137-142, 188-193, 231-236,
277-282 of the source); `c` is the tick counter at the backfill. -/
def freshMetadata (tau : Nat → String) (c : Nat) : JVal :=
  jobj [("created_at", js (tau c)), ("last_updated", js (tau (c + 1))),
        ("version", jn 1)]

/-- The backfill loop of `initialize_user_schema`: for every key of the
default schema absent from the existing document, add it with its value. -/
def backfill (ds : List (String × JVal)) (ed : List (String × JVal)) :
    List (String × JVal) :=
  ds.foldl (fun acc kv => if (dlookup acc kv.1).isSome then acc
                          else dinsert acc kv.1 kv.2) ed

/-- `CouchbaseMemory.initialize_user_schema`.  Returns the updated state
and the method's `True` result; `none` models an uncaught raise (metadata
present but not a dict, or a stored document that is not a JSON object). -/
def initialize_user_schema (tau : Nat → String) (sys : Sys) (u : String)
    (user_data : Option (List (String × JVal))) : Option (Sys × Bool) :=
  let key := docId u
  let ds0 := default_schema (tau sys.clk) (tau (sys.clk + 1))
  let ds1 := match user_data with
    | some ud => dupdate ds0 ud
    | none => ds0
  match dlookup ds1 "metadata" with
  | some (jobj m) =>
    let ds2 := dinsert ds1 "metadata"
      (jobj (dinsert m "last_updated" (js (tau (sys.clk + 2)))))
    match storeGet sys.store key with
    | none =>
      some ({ store := storeUpsert sys.store key (jobj ds2),
              clk := sys.clk + 3 }, true)
    | some (jobj ed) =>
      let ed1 := backfill ds2 ed
      match dlookup ed1 "metadata" with
      | some (jobj m2) =>
        let ed2 := dinsert ed1 "metadata"
          (jobj (dinsert m2 "last_updated" (js (tau (sys.clk + 3)))))
        some ({ store := storeUpsert sys.store key (jobj ed2),
                clk := sys.clk + 4 }, true)
      | _ => none
    | some _ => none
  | _ => none

/-- The `try get / except initialize-then-get` preamble shared by
`update_user_section`, `_add_task` and `update_habit_streaks`. -/
def fetchOrInit (tau : Nat → String) (sys : Sys) (u : String) :
    Option (Sys × List (String × JVal)) :=
  match storeGet sys.store (docId u) with
  | some (jobj d) => some (sys, d)
  | some _ => none
  | none =>
    match initialize_user_schema tau sys u none with
    | some (sys1, _) =>
      match storeGet sys1.store (docId u) with
      | some (jobj d) => some (sys1, d)
      | _ => none
    | none => none

/-- `CouchbaseMemory.update_user_section`. -/
def update_user_section (tau : Nat → String) (sys : Sys) (u : String)
    (sect : String) (data : JVal) : Option (Sys × Bool) :=
  match fetchOrInit tau sys u with
  | none => none
  | some (sys1, d0) =>
    let mdAbsent := (dlookup d0 "metadata").isNone
    let d1 := if mdAbsent then dinsert d0 "metadata" (freshMetadata tau sys1.clk)
              else d0
    let c1 := if mdAbsent then sys1.clk + 2 else sys1.clk
    let d2 := match dlookup d1 sect, data with
      | some (jobj secObj), jobj dObj => dinsert d1 sect (jobj (dupdate secObj dObj))
      | _, _ => dinsert d1 sect data
    match dlookup d2 "metadata" with
    | some (jobj m) =>
      some ({ store := storeUpsert sys1.store (docId u)
                (jobj (dinsert d2 "metadata"
                  (jobj (dinsert m "last_updated" (js (tau c1)))))),
              clk := c1 + 1 }, true)
    | _ => none

/-- `CouchbaseMemory.get_user_section`.  `section = some ""` behaves like
`None` because `if section:` is false for an empty string. -/
def get_user_section (sys : Sys) (u : String) (sect : Option String) :
    Option JVal :=
  match storeGet sys.store (docId u) with
  | none => some (jobj [])
  | some (jobj d) =>
    match sect with
    | some s => if s = "" then some (jobj d) else some (dget d s (jobj []))
    | none => some (jobj d)
  | some _ => none

/-- `CouchbaseMemory._add_task`. -/
def _add_task (tau : Nat → String) (sys : Sys) (u : String)
    (task_data : List (String × JVal)) : Option (Sys × Bool) :=
  match fetchOrInit tau sys u with
  | none => none
  | some (sys1, d0) =>
    let d1 := if (dlookup d0 "task_tracking").isSome then d0
              else dinsert d0 "task_tracking"
                (jobj [("current_tasks", jarr []), ("completed_tasks", jarr [])])
    match dlookup d1 "task_tracking" with
    | some (jobj tt0) =>
      let tt1 := if (dlookup tt0 "current_tasks").isSome then tt0
                 else dinsert tt0 "current_tasks" (jarr [])
      let mdAbsent := (dlookup d1 "metadata").isNone
      let d2 := if mdAbsent then dinsert d1 "metadata" (freshMetadata tau sys1.clk)
                else d1
      let c1 := if mdAbsent then sys1.clk + 2 else sys1.clk
      let task1 := dinsert task_data "last_activity" (js (tau c1))
      match dlookup tt1 "current_tasks" with
      | some (jarr cur) =>
        let d3 := dinsert d2 "task_tracking"
          (jobj (dinsert tt1 "current_tasks" (jarr (cur ++ [jobj task1]))))
        match dlookup d3 "metadata" with
        | some (jobj m) =>
          some ({ store := storeUpsert sys1.store (docId u)
                    (jobj (dinsert d3 "metadata"
                      (jobj (dinsert m "last_updated" (js (tau (c1 + 1))))))),
                  clk := c1 + 2 }, true)
        | _ => none
      | _ => none
    | _ => none

/-- The scan-and-pop loop of `_complete_task` over `current_tasks`:
`some none` when no entry matches, `some (some (task, rest))` when the
first matching entry is popped, `none` when a non-dict entry is reached
before a match (Python raises on `task.get` there). -/
def popTask (task_id : String) :
    List JVal → Option (Option (List (String × JVal) × List JVal))
  | [] => some none
  | jobj t :: rest =>
    if jeqStr (dlookup t "task_id") task_id then some (some (t, rest))
    else
      match popTask task_id rest with
      | some none => some none
      | some (some (tk, rem)) => some (some (tk, jobj t :: rem))
      | none => none
  | _ :: _ => none

/-- `CouchbaseMemory._complete_task`. -/
def _complete_task (tau : Nat → String) (sys : Sys) (u : String)
    (task_id : String) : Option (Sys × Bool) :=
  match storeGet sys.store (docId u) with
  | none => some (sys, false)
  | some (jobj d0) =>
    let d1 := if (dlookup d0 "task_tracking").isSome then d0
              else dinsert d0 "task_tracking"
                (jobj [("current_tasks", jarr []), ("completed_tasks", jarr [])])
    match dlookup d1 "task_tracking" with
    | some (jobj tt0) =>
      let tt1 := if (dlookup tt0 "current_tasks").isSome then tt0
                 else dinsert tt0 "current_tasks" (jarr [])
      let tt2 := if (dlookup tt1 "completed_tasks").isSome then tt1
                 else dinsert tt1 "completed_tasks" (jarr [])
      match dlookup tt2 "current_tasks" with
      | some (jarr cur) =>
        match popTask task_id cur with
        | none => none
        | some none => some (sys, false)
        | some (some (tfields, cur2)) =>
          let mdAbsent := (dlookup d1 "metadata").isNone
          let d2 := if mdAbsent then dinsert d1 "metadata" (freshMetadata tau sys.clk)
                    else d1
          let c1 := if mdAbsent then sys.clk + 2 else sys.clk
          let tdone := dinsert (dinsert tfields "completed_on" (js (tau c1)))
            "status" (js "completed")
          match dlookup tt2 "completed_tasks" with
          | some (jarr comp) =>
            let d3 := dinsert d2 "task_tracking"
              (jobj (dinsert (dinsert tt2 "current_tasks" (jarr cur2))
                "completed_tasks" (jarr (comp ++ [jobj tdone]))))
            match dlookup d3 "metadata" with
            | some (jobj m) =>
              some ({ store := storeUpsert sys.store (docId u)
                        (jobj (dinsert d3 "metadata"
                          (jobj (dinsert m "last_updated" (js (tau (c1 + 1))))))),
                      clk := c1 + 2 }, true)
            | _ => none
          | _ => none
      | _ => none
    | _ => none
  | some _ => none

/-- `CouchbaseMemory._update_productivity_insights`. -/
def _update_productivity_insights (tau : Nat → String) (sys : Sys) (u : String)
    (insights : List (String × JVal)) : Option (Sys × Bool) :=
  update_user_section tau sys u "productivity_insights" (jobj insights)

/-- `CouchbaseMemory.update_habit_streaks`. -/
def update_habit_streaks (tau : Nat → String) (sys : Sys) (u : String)
    (streaks : List (String × JVal)) : Option (Sys × Bool) :=
  match fetchOrInit tau sys u with
  | none => none
  | some (sys1, d0) =>
    let d1 := if (dlookup d0 "productivity_insights").isSome then d0
              else dinsert d0 "productivity_insights"
                (jobj [("best_focus_times", jarr []),
                       ("energy_levels", jobj
                         [("morning", js ""), ("afternoon", js ""),
                          ("evening", js "")]),
                       ("habit_streaks", jobj
                         [("workout_streak_days", jn 0),
                          ("task_completion_streak", jn 0)])])
    match dlookup d1 "productivity_insights" with
    | some (jobj pi0) =>
      let pi1 := if (dlookup pi0 "habit_streaks").isSome then pi0
                 else dinsert pi0 "habit_streaks"
                   (jobj [("workout_streak_days", jn 0),
                          ("task_completion_streak", jn 0)])
      let mdAbsent := (dlookup d1 "metadata").isNone
      let d2 := if mdAbsent then dinsert d1 "metadata" (freshMetadata tau sys1.clk)
                else d1
      let c1 := if mdAbsent then sys1.clk + 2 else sys1.clk
      match dlookup pi1 "habit_streaks" with
      | some (jobj hs) =>
        let d3 := dinsert d2 "productivity_insights"
          (jobj (dinsert pi1 "habit_streaks" (jobj (dupdate hs streaks))))
        match dlookup d3 "metadata" with
        | some (jobj m) =>
          some ({ store := storeUpsert sys1.store (docId u)
                    (jobj (dinsert d3 "metadata"
                      (jobj (dinsert m "last_updated" (js (tau c1)))))),
                  clk := c1 + 1 }, true)
        | _ => none
      | _ => none
    | _ => none


/-- `initialize_user_profile` (tool layer). -/
def initialize_user_profile (tau : Nat → String) (sys : Sys) (u : String) :
    Option (Sys × JVal) :=
  match initialize_user_schema tau sys u none with
  | some (sys1, true) =>
    some (sys1, jobj [("status", js "success"),
      ("message", js ("User profile initialized for " ++ u))])
  | some (sys1, false) =>
    some (sys1, jobj [("status", js "error"),
      ("message", js "Failed to initialize user profile")])
  | none => none

/-- The sequential `if key in updates and updates..key.:` filters shared by
`update_personal_info`, `update_daily_routine` and
`update_productivity_insights`: each listed key whose value is truthy is
copied into a fresh dict, in order. -/
def pickAux (upd : List (String × JVal)) :
    List String → List (String × JVal) → List (String × JVal)
  | [], acc => acc
  | k :: rest, acc =>
    pickAux upd rest (match dlookup upd k with
      | some v => if truthy v then dinsert acc k v else acc
      | none => acc)

/-- Filter `upd` down to the truthy values of the listed keys. -/
def pickKeys (keys : List String) (upd : List (String × JVal)) :
    List (String × JVal) :=
  pickAux upd keys []

/-- The extraction at the top of `update_personal_info` (lines 325-333). -/
def pickPersonal (personal_updates : List (String × JVal)) :
    List (String × JVal) :=
  pickKeys ["name", "age", "domain"] personal_updates

/-- `update_personal_info` (tool layer). -/
def update_personal_info (tau : Nat → String) (sys : Sys) (u : String)
    (personal_updates : List (String × JVal)) : Option (Sys × JVal) :=
  let personal_info := pickPersonal personal_updates
  if personal_info.isEmpty then
    some (sys, jobj [("status", js "error"),
      ("message", js "No information provided to update")])
  else
    match update_user_section tau sys u "personal_info" (jobj personal_info) with
    | some (sys1, true) =>
      some (sys1, jobj [("status", js "success"),
        ("message", js "Personal information updated")])
    | some (sys1, false) =>
      some (sys1, jobj [("status", js "error"),
        ("message", js "No information provided to update")])
    | none => none

/-- The extraction at the top of `update_daily_routine` (lines 349-355). -/
def pickRoutine (routine_updates : List (String × JVal)) :
    List (String × JVal) :=
  pickKeys ["meal_timings", "working_hours", "workout_preferences"] routine_updates

/-- `update_daily_routine` (tool layer). -/
def update_daily_routine (tau : Nat → String) (sys : Sys) (u : String)
    (routine_updates : List (String × JVal)) : Option (Sys × JVal) :=
  let routine_data := pickRoutine routine_updates
  if routine_data.isEmpty then
    some (sys, jobj [("status", js "error"),
      ("message", js "No routine information provided")])
  else
    match update_user_section tau sys u "daily_routine" (jobj routine_data) with
    | some (sys1, true) =>
      some (sys1, jobj [("status", js "success"),
        ("message", js "Daily routine updated")])
    | some (sys1, false) =>
      some (sys1, jobj [("status", js "error"),
        ("message", js "No routine information provided")])
    | none => none

/-- `add_task` (tool layer).  `sigma` renders the `strftime` reading that
becomes the task id; `tau` renders the `isoformat` readings.  Quote marks
that the source puts around the description inside the message are elided
from the string literals. -/
def add_task (tau sigma : Nat → String) (sys : Sys) (u : String)
    (task_description priority due_date : String) : Option (Sys × JVal) :=
  let task_id := "task_" ++ sigma sys.clk
  let task0 := [("task_id", js task_id),
                ("description", js task_description),
                ("priority", js priority),
                ("status", js "pending"),
                ("created_at", js (tau (sys.clk + 1)))]
  let task1 := if due_date ≠ "" && due_date.trim ≠ ""
               then dinsert task0 "due_date" (js due_date) else task0
  match _add_task tau { sys with clk := sys.clk + 2 } u task1 with
  | some (sys1, true) =>
    some (sys1, jobj [("status", js "success"),
      ("message", js ("Task " ++ task_description ++ " added with ID: " ++ task_id)),
      ("task_id", js task_id)])
  | some (sys1, false) =>
    some (sys1, jobj [("status", js "error"),
      ("message", js "Failed to add task")])
  | none => none

/-- `complete_task` (tool layer). -/
def complete_task (tau : Nat → String) (sys : Sys) (u : String)
    (task_id : String) : Option (Sys × JVal) :=
  match _complete_task tau sys u task_id with
  | some (sys1, true) =>
    some (sys1, jobj [("status", js "success"),
      ("message", js ("Task " ++ task_id ++ " marked as completed"))])
  | some (sys1, false) =>
    some (sys1, jobj [("status", js "error"),
      ("message", js ("Failed to complete task " ++ task_id ++ " - task not found"))])
  | none => none

/-- `get_current_tasks` (tool layer).  Note the returned structure carries
no `message` field in the source. -/
def get_current_tasks (sys : Sys) (u : String) : Option JVal :=
  match get_user_section sys u (some "task_tracking") with
  | some (jobj tt) =>
    match dget tt "current_tasks" (jarr []) with
    | jarr cur =>
      some (jobj [("status", js "success"),
        ("current_tasks", jarr cur),
        ("count", jn cur.length)])
    | _ => none
  | _ => none

/-- The extraction at the top of `update_productivity_insights`
(lines 417-423). -/
def pickInsights (insights_updates : List (String × JVal)) :
    List (String × JVal) :=
  pickKeys ["best_focus_times", "energy_levels", "habit_streaks"] insights_updates

/-- `update_productivity_insights` (tool layer). -/
def update_productivity_insights (tau : Nat → String) (sys : Sys) (u : String)
    (insights_updates : List (String × JVal)) : Option (Sys × JVal) :=
  let insights := pickInsights insights_updates
  if insights.isEmpty then
    some (sys, jobj [("status", js "error"),
      ("message", js "No insights provided")])
  else
    match _update_productivity_insights tau sys u insights with
    | some (sys1, true) =>
      some (sys1, jobj [("status", js "success"),
        ("message", js "Productivity insights updated")])
    | some (sys1, false) =>
      some (sys1, jobj [("status", js "error"),
        ("message", js "No insights provided")])
    | none => none

/-- `add_habit_or_blocker` (tool layer).  Quote marks inside the message
literals are elided. -/
def add_habit_or_blocker (tau : Nat → String) (sys : Sys) (u : String)
    (category item : String) : Option (Sys × JVal) :=
  if category ≠ "procrastination_habits" && category ≠ "known_blockers" then
    some (sys, jobj [("status", js "error"),
      ("message", js "Category must be procrastination_habits or known_blockers")])
  else
    match get_user_section sys u (some "habits_and_behaviors") with
    | some (jobj hd) =>
      let hd1 := if (dlookup hd category).isSome then hd
                 else dinsert hd category (jarr [])
      match dlookup hd1 category with
      | some (jarr lst) =>
        if memS lst item then
          some (sys, jobj [("status", js "info"),
            ("message", js (item ++ " already exists in " ++ category))])
        else
          match update_user_section tau sys u "habits_and_behaviors"
              (jobj (dinsert hd1 category (jarr (lst ++ [js item])))) with
          | some (sys1, true) =>
            some (sys1, jobj [("status", js "success"),
              ("message", js ("Added " ++ item ++ " to " ++ category))])
          | some (sys1, false) =>
            some (sys1, jobj [("status", js "info"),
              ("message", js (item ++ " already exists in " ++ category))])
          | none => none
      | _ => none
    | _ => none

/-- `get_user_profile` (tool layer).  No `message` field in the source. -/
def get_user_profile (sys : Sys) (u : String) (sect : String) : Option JVal :=
  if sect ≠ "" && sect.trim ≠ "" then
    match get_user_section sys u (some sect) with
    | some data =>
      some (jobj [("status", js "success"), ("section", js sect), ("data", data)])
    | none => none
  else
    match get_user_section sys u none with
    | some data => some (jobj [("status", js "success"), ("profile", data)])
    | none => none

/-- One engine mutation, as named by the spec: `updateSection`, `addTask`,
`completeTask`, `updateHabitStreaks`, `addHabitOrBlocker`. -/
inductive EngineOp where
  | upd (sect : String) (data : JVal)
  | addT (descr prio due : String)
  | compT (task_id : String)
  | streaks (s : List (String × JVal))
  | habit (category item : String)

/-- Run one engine mutation for user `u`, keeping only the state. -/
def runOp (tau sigma : Nat → String) (u : String) (op : EngineOp) (sys : Sys) :
    Option Sys :=
  match op with
  | EngineOp.upd sect data =>
    (update_user_section tau sys u sect data).map Prod.fst
  | EngineOp.addT d p due => (add_task tau sigma sys u d p due).map Prod.fst
  | EngineOp.compT tid => (complete_task tau sys u tid).map Prod.fst
  | EngineOp.streaks st => (update_habit_streaks tau sys u st).map Prod.fst
  | EngineOp.habit c i => (add_habit_or_blocker tau sys u c i).map Prod.fst

/-- Run a sequence of engine mutations. -/
def runOps (tau sigma : Nat → String) (u : String) :
    List EngineOp → Sys → Option Sys
  | [], sys => some sys
  | op :: rest, sys =>
    match runOp tau sigma u op sys with
    | some sys1 => runOps tau sigma u rest sys1
    | none => none

/-- Task operations are the `addTask`/`completeTask` subset of `EngineOp`. -/
def isTaskOp : EngineOp → Bool
  | EngineOp.addT _ _ _ => true
  | EngineOp.compT _ => true
  | _ => false

/-- The document currently stored for user `u`. -/
def storedDoc (sys : Sys) (u : String) : Option JVal :=
  storeGet sys.store (docId u)

/-- A top-level field of the stored document for `u`. -/
def docField (sys : Sys) (u key : String) : Option JVal :=
  match storedDoc sys u with
  | some (jobj d) => dlookup d key
  | _ => none

/-- A field of the stored document's `metadata` section. -/
def metaField (sys : Sys) (u key : String) : Option JVal :=
  match docField sys u "metadata" with
  | some (jobj m) => dlookup m key
  | _ => none

/-- The stored `current_tasks` list for `u`. -/
def currentTasksOf (sys : Sys) (u : String) : Option (List JVal) :=
  match docField sys u "task_tracking" with
  | some (jobj tt) =>
    match dlookup tt "current_tasks" with
    | some (jarr l) => some l
    | _ => none
  | _ => none

/-- The stored `completed_tasks` list for `u`. -/
def completedTasksOf (sys : Sys) (u : String) : Option (List JVal) :=
  match docField sys u "task_tracking" with
  | some (jobj tt) =>
    match dlookup tt "completed_tasks" with
    | some (jarr l) => some l
    | _ => none
  | _ => none

/-- The string `task_id`s of a task list (tasks without one are skipped). -/
def idsOf (l : List JVal) : List String :=
  l.filterMap (fun t =>
    match t with
    | jobj f =>
      match dlookup f "task_id" with
      | some (js s) => some s
      | _ => none
    | _ => none)

/-- The stored `habits_and_behaviors` list under `category` for `u`. -/
def habitListOf (sys : Sys) (u category : String) : Option (List JVal) :=
  match docField sys u "habits_and_behaviors" with
  | some (jobj hb) =>
    match dlookup hb category with
    | some (jarr l) => some l
    | _ => none
  | _ => none

/-- Initialize user `u` with no seed data, then run a sequence of engine
mutations. -/
def initThenOps (tau sigma : Nat → String) (u : String) (ops : List EngineOp)
    (sys : Sys) : Option Sys :=
  match initialize_user_schema tau sys u none with
  | some (sys1, _) => runOps tau sigma u ops sys1
  | none => none

/-- A concrete rendering oracle used by witnesses: tick `n` prints as the
decimal numeral `n`. -/
def tickName (n : Nat) : String := toString n

/-- The fetched value under a key is either absent or a dict — the
well-formedness every Python dict subscript in the source relies on. -/
def objOrAbsent : Option JVal → Bool
  | none => true
  | some (jobj _) => true
  | _ => false

/-- Every entry of the task list is a dict, as the scan loop of
`_complete_task` requires. -/
def taskListOk : List JVal → Bool
  | [] => true
  | jobj _ :: rest => taskListOk rest
  | _ :: _ => false

/-- The loop condition `task.get("task_id") == task_id` of `_complete_task`
for one entry. -/
def matchesTid (t : JVal) (tid : String) : Bool :=
  match t with
  | jobj f => jeqStr (dlookup f "task_id") tid
  | _ => false

/-- The fetched value under a key is either absent or a JSON list. -/
def arrOrAbsent : Option JVal → Bool
  | none => true
  | some (jarr _) => true
  | _ => false

/-- Every entry of `l` is a task dict whose `task_id` was generated by the
`strftime` oracle at a tick before `bound`. -/
def TasksFrom (sigma : Nat → String) (bound : Nat) (l : List JVal) : Prop :=
  ∀ t ∈ l, ∃ (f : List (String × JVal)) (k : Nat),
    t = jobj f ∧ dlookup f "task_id" = some (js ("task_" ++ sigma k)) ∧
    k < bound

/-- Invariant tying the stored document of `u` to the clock: both task
lists are present, every task id comes from an earlier tick, and all ids
across the two lists are distinct. -/
def TaskInv (sigma : Nat → String) (u : String) (sys : Sys) : Prop :=
  ∃ (d m tt : List (String × JVal)) (cur comp : List JVal),
    storeGet sys.store (docId u) = some (jobj d) ∧
    dlookup d "metadata" = some (jobj m) ∧
    dlookup d "task_tracking" = some (jobj tt) ∧
    dlookup tt "current_tasks" = some (jarr cur) ∧
    dlookup tt "completed_tasks" = some (jarr comp) ∧
    TasksFrom sigma sys.clk cur ∧ TasksFrom sigma sys.clk comp ∧
    (idsOf cur ++ idsOf comp).Nodup

/-- A rendering oracle that is injective on ticks, used by witnesses: tick
`n` prints as `n` letters. -/
def aRun (n : Nat) : String := String.mk (List.replicate n 'a')

/-- `dinsert` writes `val` at `key` and leaves every other key alone. -/
theorem dlookup_dinsert (l : List (String × JVal)) (key : String) (val : JVal)
    (q : String) :
    dlookup (dinsert l key val) q = if key = q then some val else dlookup l q := by
  induction l with
  | nil => simp [dinsert, dlookup]
  | cons kv rest ih =>
    obtain ⟨a, b⟩ := kv
    by_cases hak : a = key
    · subst hak
      by_cases haq : a = q <;> simp [dinsert, dlookup, haq]
    · by_cases haq : a = q
      · subst haq
        have hka : ¬ key = a := fun h => hak h.symm
        simp [dinsert, dlookup, hak, hka]
      · simp [dinsert, dlookup, hak, haq, ih]

theorem dupdate_nil (old : List (String × JVal)) : dupdate old [] = old := rfl

theorem dupdate_cons (old : List (String × JVal)) (a : String) (b : JVal)
    (rest : List (String × JVal)) :
    dupdate old ((a, b) :: rest) = dupdate (dinsert old a b) rest := rfl

/-- A key not bound in `new` is unchanged by `old.update(new)`. -/
theorem dlookup_dupdate_not_mem (old new : List (String × JVal)) (q : String)
    (h : dlookup new q = none) :
    dlookup (dupdate old new) q = dlookup old q := by
  induction new generalizing old with
  | nil => rfl
  | cons kv rest ih =>
    obtain ⟨a, b⟩ := kv
    have ha : ¬ a = q := by
      intro hh
      simp [dlookup, hh] at h
    have hr : dlookup rest q = none := by
      simpa [dlookup, ha] using h
    rw [dupdate_cons, ih _ hr, dlookup_dinsert]
    simp [ha]

/-- If a key is not bound in `l` then `dlookup` misses. -/
theorem dlookup_eq_none_of_not_mem (l : List (String × JVal)) (q : String)
    (h : q ∉ l.map Prod.fst) : dlookup l q = none := by
  induction l with
  | nil => rfl
  | cons kv rest ih =>
    obtain ⟨a, b⟩ := kv
    simp only [List.map_cons, List.mem_cons] at h
    push_neg at h
    have : ¬ a = q := fun hh => h.1 hh.symm
    simp [dlookup, this, ih h.2]

/-- A key bound in `new` (whose keys are distinct, as in a Python dict)
ends up bound to its `new` value after `old.update(new)`. -/
theorem dlookup_dupdate_some (old new : List (String × JVal)) (q : String)
    (v : JVal) (hnd : (new.map Prod.fst).Nodup) (h : dlookup new q = some v) :
    dlookup (dupdate old new) q = some v := by
  induction new generalizing old with
  | nil => cases h
  | cons kv rest ih =>
    obtain ⟨a, b⟩ := kv
    simp only [List.map_cons, List.nodup_cons] at hnd
    by_cases haq : a = q
    · subst haq
      have hv : v = b := by
        simp [dlookup] at h
        exact h.symm
      subst hv
      have hrest : dlookup rest a = none :=
        dlookup_eq_none_of_not_mem _ _ hnd.1
      rw [dupdate_cons, dlookup_dupdate_not_mem _ _ _ hrest, dlookup_dinsert]
      simp
    · have hr : dlookup rest q = some v := by
        simpa [dlookup, haq] using h
      rw [dupdate_cons]
      exact ih _ hnd.2 hr

theorem backfill_nil (ed : List (String × JVal)) : backfill [] ed = ed := rfl

theorem backfill_cons (a : String) (b : JVal) (ds ed : List (String × JVal)) :
    backfill ((a, b) :: ds) ed
      = backfill ds (if (dlookup ed a).isSome then ed else dinsert ed a b) := rfl

/-- Backfilling never changes a key that is already present. -/
theorem dlookup_backfill_present (ds ed : List (String × JVal)) (q : String)
    (v : JVal) (h : dlookup ed q = some v) :
    dlookup (backfill ds ed) q = some v := by
  induction ds generalizing ed with
  | nil => exact h
  | cons kv rest ih =>
    obtain ⟨a, b⟩ := kv
    rw [backfill_cons]
    by_cases hp : (dlookup ed a).isSome
    · simpa [hp] using ih _ h
    · have haq : ¬ a = q := by
        intro hh
        subst hh
        rw [h] at hp
        exact hp rfl
      have : dlookup (dinsert ed a b) q = some v := by
        rw [dlookup_dinsert]
        simp [haq, h]
      simpa [hp] using ih _ this

/-- Backfilling with defaults that do not mention `q` leaves `q` alone. -/
theorem dlookup_backfill_not_mem (ds ed : List (String × JVal)) (q : String)
    (h : dlookup ds q = none) :
    dlookup (backfill ds ed) q = dlookup ed q := by
  induction ds generalizing ed with
  | nil => rfl
  | cons kv rest ih =>
    obtain ⟨a, b⟩ := kv
    have ha : ¬ a = q := by
      intro hh
      simp [dlookup, hh] at h
    have hr : dlookup rest q = none := by
      simpa [dlookup, ha] using h
    rw [backfill_cons]
    by_cases hp : (dlookup ed a).isSome
    · simpa [hp] using ih _ hr
    · have heq : dlookup (dinsert ed a b) q = dlookup ed q := by
        rw [dlookup_dinsert]
        simp [ha]
      have hp2 : (dlookup ed a).isSome = false := by simpa using hp
      simp only [hp2, Bool.false_eq_true, if_false]
      rw [ih _ hr, heq]

/-- A default-schema key absent from the document is backfilled with its
default value (the default keys are distinct). -/
theorem dlookup_backfill_absent (ds ed : List (String × JVal)) (q : String)
    (v : JVal) (hnd : (ds.map Prod.fst).Nodup) (habs : dlookup ed q = none)
    (hmem : dlookup ds q = some v) :
    dlookup (backfill ds ed) q = some v := by
  induction ds generalizing ed with
  | nil => cases hmem
  | cons kv rest ih =>
    obtain ⟨a, b⟩ := kv
    simp only [List.map_cons, List.nodup_cons] at hnd
    rw [backfill_cons]
    by_cases haq : a = q
    · subst haq
      have hv : b = v := by
        simpa [dlookup] using hmem
      have hrest : dlookup rest a = none :=
        dlookup_eq_none_of_not_mem _ _ hnd.1
      have hins : dlookup (dinsert ed a b) a = some b := by
        rw [dlookup_dinsert]
        simp
      have habs2 : (dlookup ed a).isSome = false := by simp [habs]
      simp only [habs2, Bool.false_eq_true, if_false]
      rw [dlookup_backfill_not_mem _ _ _ hrest, hins, hv]
    · have hr : dlookup rest q = some v := by
        simpa [dlookup, haq] using hmem
      by_cases hp : (dlookup ed a).isSome
      · simpa [hp] using ih _ hnd.2 habs hr
      · have habs2 : dlookup (dinsert ed a b) q = none := by
          rw [dlookup_dinsert]
          simp [haq, habs]
        have hp2 : (dlookup ed a).isSome = false := by simpa using hp
        simp only [hp2, Bool.false_eq_true, if_false]
        exact ih _ hnd.2 habs2 hr

/-- C7: for a user with no stored document, `get_user_section` returns an
empty structure and surfaces no error, both for a named section and for the
whole document; and for a present document, a named section that is absent
also yields an empty structure. -/
theorem getSection_missing_is_empty :
    (∀ (sys : Sys) (u s : String),
      storeGet sys.store (docId u) = none →
        get_user_section sys u (some s) = some (jobj []) ∧
        get_user_section sys u none = some (jobj [])) ∧
    (∀ (sys : Sys) (u s : String) (d : List (String × JVal)),
      s ≠ "" →
      storeGet sys.store (docId u) = some (jobj d) →
      dlookup d s = none →
        get_user_section sys u (some s) = some (jobj [])) := by
  constructor
  · intro sys u s habs
    constructor <;> simp [get_user_section, habs]
  · intro sys u s d hs hdoc hnone
    simp [get_user_section, hdoc, hs, dget, hnone]

/-- Witness for C7 at a concrete state: the empty store. -/
theorem getSection_missing_is_empty_witness :
    storeGet (Sys.mk [] 0).store (docId "Chris") = none ∧
    get_user_section (Sys.mk [] 0) "Chris" (some "task_tracking") = some (jobj []) ∧
    get_user_section (Sys.mk [] 0) "Chris" none = some (jobj []) :=
  ⟨rfl, (getSection_missing_is_empty.1 (Sys.mk [] 0) "Chris" "task_tracking" rfl).1,
    (getSection_missing_is_empty.1 (Sys.mk [] 0) "Chris" "task_tracking" rfl).2⟩

/-- Anything bound by the pick filter came from a listed key of the update
payload and was truthy. -/
theorem pickAux_lookup_forward (upd : List (String × JVal)) (keys : List String)
    (acc : List (String × JVal)) (q : String) (v : JVal)
    (h : dlookup (pickAux upd keys acc) q = some v) :
    dlookup acc q = some v ∨
      (q ∈ keys ∧ dlookup upd q = some v ∧ truthy v = true) := by
  induction keys generalizing acc with
  | nil => exact Or.inl h
  | cons k rest ih =>
    cases hk : dlookup upd k with
    | none =>
      simp only [pickAux, hk] at h
      rcases ih _ h with h1 | h2
      · exact Or.inl h1
      · exact Or.inr ⟨List.mem_cons_of_mem _ h2.1, h2.2⟩
    | some w =>
      by_cases ht : truthy w
      · simp only [pickAux, hk, ht, if_true] at h
        rcases ih _ h with h1 | h2
        · rw [dlookup_dinsert] at h1
          by_cases hkq : k = q
          · subst hkq
            simp only [if_pos rfl] at h1
            have hwv : w = v := by
              simpa using h1
            subst hwv
            exact Or.inr ⟨List.mem_cons_self _ _, hk, ht⟩
          · simp only [hkq, if_false] at h1
            exact Or.inl h1
        · exact Or.inr ⟨List.mem_cons_of_mem _ h2.1, h2.2⟩
      · have ht2 : truthy w = false := by simpa using ht
        simp only [pickAux, hk, ht2, Bool.false_eq_true, if_false] at h
        rcases ih _ h with h1 | h2
        · exact Or.inl h1
        · exact Or.inr ⟨List.mem_cons_of_mem _ h2.1, h2.2⟩

/-- A binding already in the accumulator that agrees with the payload
survives the pick filter. -/
theorem pickAux_lookup_preserved (upd : List (String × JVal))
    (keys : List String) (acc : List (String × JVal)) (q : String) (v : JVal)
    (hacc : dlookup acc q = some v) (hupd : dlookup upd q = some v) :
    dlookup (pickAux upd keys acc) q = some v := by
  induction keys generalizing acc with
  | nil => exact hacc
  | cons k rest ih =>
    cases hk : dlookup upd k with
    | none =>
      simp only [pickAux, hk]
      exact ih _ hacc
    | some w =>
      by_cases ht : truthy w
      · simp only [pickAux, hk, ht, if_true]
        apply ih
        rw [dlookup_dinsert]
        by_cases hkq : k = q
        · subst hkq
          rw [hk] at hupd
          simpa using hupd
        · simp [hkq, hacc]
      · have ht2 : truthy w = false := by simpa using ht
        simp only [pickAux, hk, ht2, Bool.false_eq_true, if_false]
        exact ih _ hacc

/-- A listed key with a truthy payload value is kept by the pick filter. -/
theorem pickAux_lookup_mem (upd : List (String × JVal)) (keys : List String)
    (acc : List (String × JVal)) (q : String) (v : JVal) (hq : q ∈ keys)
    (hupd : dlookup upd q = some v) (ht : truthy v = true) :
    dlookup (pickAux upd keys acc) q = some v := by
  induction keys generalizing acc with
  | nil => cases hq
  | cons k rest ih =>
    by_cases hkq : k = q
    · subst hkq
      simp only [pickAux, hupd, ht, if_true]
      apply pickAux_lookup_preserved
      · rw [dlookup_dinsert]
        simp
      · exact hupd
    · have hq2 : q ∈ rest := by
        rcases List.mem_cons.mp hq with h | h
        · exact absurd h.symm hkq
        · exact h
      cases hk : dlookup upd k with
      | none =>
        simp only [pickAux, hk]
        exact ih _ hq2
      | some w =>
        by_cases htw : truthy w
        · simp only [pickAux, hk, htw, if_true]
          exact ih _ hq2
        · have ht2 : truthy w = false := by simpa using htw
          simp only [pickAux, hk, ht2, Bool.false_eq_true, if_false]
          exact ih _ hq2

/-- C10: `update_personal_info` forwards exactly the keys among `name`,
`age`, `domain` whose values are truthy, so `age` can never be set to `0`
through it; when nothing survives the filter it returns status error
without writing. -/
theorem update_personal_info_truthy_filter :
    (∀ (upd : List (String × JVal)) (q : String) (v : JVal),
      dlookup (pickPersonal upd) q = some v →
        (q = "name" ∨ q = "age" ∨ q = "domain") ∧
        dlookup upd q = some v ∧ truthy v = true) ∧
    (∀ (upd : List (String × JVal)) (q : String) (v : JVal),
      (q = "name" ∨ q = "age" ∨ q = "domain") →
      dlookup upd q = some v → truthy v = true →
        dlookup (pickPersonal upd) q = some v) ∧
    (∀ upd : List (String × JVal),
      dlookup (pickPersonal upd) "age" ≠ some (jn 0)) ∧
    (∀ (tau : Nat → String) (sys : Sys) (u : String)
        (upd : List (String × JVal)),
      pickPersonal upd = [] →
        update_personal_info tau sys u upd =
          some (sys, jobj [("status", js "error"),
            ("message", js "No information provided to update")])) := by
  refine ⟨?_, ?_, ?_, ?_⟩
  · intro upd q v h
    rcases pickAux_lookup_forward upd _ _ q v h with h1 | h2
    · cases h1
    · refine ⟨?_, h2.2⟩
      simpa using h2.1
  · intro upd q v hq hupd ht
    apply pickAux_lookup_mem
    · simpa using hq
    · exact hupd
    · exact ht
  · intro upd h
    rcases pickAux_lookup_forward upd _ _ _ _ h with h1 | h2
    · cases h1
    · have : truthy (jn 0) = true := h2.2.2
      simp [truthy] at this
  · intro tau sys u upd h
    simp [update_personal_info, h]

/-- Witness for C10: an update whose `age` is `0` is dropped entirely and
the call reports an error without touching the store. -/
theorem update_personal_info_truthy_filter_witness :
    pickPersonal [("age", jn 0)] = [] ∧
    update_personal_info tickName (Sys.mk [] 0) "Chris" [("age", jn 0)] =
      some (Sys.mk [] 0, jobj [("status", js "error"),
        ("message", js "No information provided to update")]) :=
  ⟨rfl, update_personal_info_truthy_filter.2.2.2 tickName (Sys.mk [] 0) "Chris"
    [("age", jn 0)] rfl⟩

/-- C2 counterexample: `initialize_user_schema` takes its `created_at` and
its final `last_updated` from two different `datetime.now()` calls, so on a
clock that advances between the reads the two fields of the freshly created
document differ. -/
theorem initialize_created_at_ne_last_updated_cex :
    ((initialize_user_schema tickName (Sys.mk [] 0) "Chris" none).map
      (fun p => (metaField p.1 "Chris" "created_at",
                 metaField p.1 "Chris" "last_updated")))
      = some (some (js "0"), some (js "2")) ∧
    js "0" ≠ js "2" := by
  constructor
  · rfl
  · intro h
    injection h with h2
    exact absurd h2 (by decide)

/-- C2 amended: for a user with no stored document, `initialize` writes a
document containing all seven top-level sections of the canonical schema,
with `metadata.version = 1`, `metadata.created_at` taken from the clock
reading at entry and `metadata.last_updated` from the reading two ticks
later; the two coincide exactly when those readings render equally (the
method itself returns `True`, not the document). -/
theorem initialize_new_user_schema (tau : Nat → String) (sys : Sys)
    (u : String) (habs : storeGet sys.store (docId u) = none) :
    ∃ (d m : List (String × JVal)),
      initialize_user_schema tau sys u none =
        some ({ store := storeUpsert sys.store (docId u) (jobj d),
                clk := sys.clk + 3 }, true) ∧
      (∀ s ∈ ["personal_info", "daily_routine", "habits_and_behaviors",
              "task_tracking", "productivity_insights", "preferences",
              "metadata"], (dlookup d s).isSome) ∧
      dlookup d "metadata" = some (jobj m) ∧
      dlookup m "version" = some (jn 1) ∧
      dlookup m "created_at" = some (js (tau sys.clk)) ∧
      dlookup m "last_updated" = some (js (tau (sys.clk + 2))) := by
  have h1 : dlookup (default_schema (tau sys.clk) (tau (sys.clk + 1)))
      "metadata" = some (jobj [("created_at", js (tau sys.clk)),
        ("last_updated", js (tau (sys.clk + 1))), ("version", jn 1)]) := rfl
  refine ⟨dinsert (default_schema (tau sys.clk) (tau (sys.clk + 1))) "metadata"
      (jobj (dinsert [("created_at", js (tau sys.clk)),
        ("last_updated", js (tau (sys.clk + 1))), ("version", jn 1)]
        "last_updated" (js (tau (sys.clk + 2))))),
    dinsert [("created_at", js (tau sys.clk)),
        ("last_updated", js (tau (sys.clk + 1))), ("version", jn 1)]
        "last_updated" (js (tau (sys.clk + 2))), ?_, ?_, ?_, ?_, ?_, ?_⟩
  · simp only [initialize_user_schema, h1, habs]
  · intro s hs
    fin_cases hs <;> rfl
  · rfl
  · rfl
  · rfl
  · rfl

/-- Witness for C2 (amended) on the empty store. -/
theorem initialize_new_user_schema_witness :
    storeGet (Sys.mk [] 0).store (docId "Chris") = none ∧
    (∃ (d m : List (String × JVal)),
      initialize_user_schema tickName (Sys.mk [] 0) "Chris" none =
        some ({ store := storeUpsert (Sys.mk [] 0).store (docId "Chris") (jobj d),
                clk := (Sys.mk [] 0).clk + 3 }, true) ∧
      (∀ s ∈ ["personal_info", "daily_routine", "habits_and_behaviors",
              "task_tracking", "productivity_insights", "preferences",
              "metadata"], (dlookup d s).isSome) ∧
      dlookup d "metadata" = some (jobj m) ∧
      dlookup m "version" = some (jn 1) ∧
      dlookup m "created_at" = some (js (tickName (Sys.mk [] 0).clk)) ∧
      dlookup m "last_updated" = some (js (tickName ((Sys.mk [] 0).clk + 2)))) :=
  ⟨rfl, initialize_new_user_schema tickName (Sys.mk [] 0) "Chris" rfl⟩

/-- The returned structure carries a `status` field that is one of
`success`, `error`, `info`. -/
def statusOk (r : JVal) : Prop :=
  ∃ (fields : List (String × JVal)) (st : String),
    r = jobj fields ∧ dlookup fields "status" = some (js st) ∧
    (st = "success" ∨ st = "error" ∨ st = "info")

/-- The returned structure carries a string `message` field. -/
def hasMessage (r : JVal) : Prop :=
  ∃ (fields : List (String × JVal)) (msg : String),
    r = jobj fields ∧ dlookup fields "message" = some (js msg)

theorem ret_shape_initialize_user_profile (tau : Nat → String) (sys : Sys)
    (u : String) (p : Sys × JVal) (h : initialize_user_profile tau sys u = some p) :
    statusOk p.2 ∧ hasMessage p.2 := by
  simp only [initialize_user_profile] at h
  repeat' split at h
  all_goals first
    | exact Option.noConfusion h
    | (injection h with h2; subst h2;
       exact ⟨⟨_, _, rfl, rfl, by decide⟩, _, _, rfl, rfl⟩)

theorem ret_shape_update_personal_info (tau : Nat → String) (sys : Sys)
    (u : String) (upd : List (String × JVal)) (p : Sys × JVal)
    (h : update_personal_info tau sys u upd = some p) :
    statusOk p.2 ∧ hasMessage p.2 := by
  simp only [update_personal_info] at h
  repeat' split at h
  all_goals first
    | exact Option.noConfusion h
    | (injection h with h2; subst h2;
       exact ⟨⟨_, _, rfl, rfl, by decide⟩, _, _, rfl, rfl⟩)

theorem ret_shape_update_daily_routine (tau : Nat → String) (sys : Sys)
    (u : String) (upd : List (String × JVal)) (p : Sys × JVal)
    (h : update_daily_routine tau sys u upd = some p) :
    statusOk p.2 ∧ hasMessage p.2 := by
  simp only [update_daily_routine] at h
  repeat' split at h
  all_goals first
    | exact Option.noConfusion h
    | (injection h with h2; subst h2;
       exact ⟨⟨_, _, rfl, rfl, by decide⟩, _, _, rfl, rfl⟩)

theorem ret_shape_add_task (tau sigma : Nat → String) (sys : Sys)
    (u descr prio due : String) (p : Sys × JVal)
    (h : add_task tau sigma sys u descr prio due = some p) :
    statusOk p.2 ∧ hasMessage p.2 := by
  simp only [add_task] at h
  repeat' split at h
  all_goals first
    | exact Option.noConfusion h
    | (injection h with h2; subst h2;
       exact ⟨⟨_, _, rfl, rfl, by decide⟩, _, _, rfl, rfl⟩)

theorem ret_shape_complete_task (tau : Nat → String) (sys : Sys)
    (u tid : String) (p : Sys × JVal)
    (h : complete_task tau sys u tid = some p) :
    statusOk p.2 ∧ hasMessage p.2 := by
  simp only [complete_task] at h
  repeat' split at h
  all_goals first
    | exact Option.noConfusion h
    | (injection h with h2; subst h2;
       exact ⟨⟨_, _, rfl, rfl, by decide⟩, _, _, rfl, rfl⟩)

theorem ret_shape_get_current_tasks (sys : Sys) (u : String) (r : JVal)
    (h : get_current_tasks sys u = some r) : statusOk r := by
  simp only [get_current_tasks] at h
  repeat' split at h
  all_goals first
    | exact Option.noConfusion h
    | (injection h with h2; subst h2;
       exact ⟨_, _, rfl, rfl, by decide⟩)

theorem ret_shape_update_productivity_insights (tau : Nat → String) (sys : Sys)
    (u : String) (upd : List (String × JVal)) (p : Sys × JVal)
    (h : update_productivity_insights tau sys u upd = some p) :
    statusOk p.2 ∧ hasMessage p.2 := by
  simp only [update_productivity_insights] at h
  repeat' split at h
  all_goals first
    | exact Option.noConfusion h
    | (injection h with h2; subst h2;
       exact ⟨⟨_, _, rfl, rfl, by decide⟩, _, _, rfl, rfl⟩)

theorem ret_shape_add_habit_or_blocker (tau : Nat → String) (sys : Sys)
    (u category item : String) (p : Sys × JVal)
    (h : add_habit_or_blocker tau sys u category item = some p) :
    statusOk p.2 ∧ hasMessage p.2 := by
  simp only [add_habit_or_blocker] at h
  repeat' split at h
  all_goals first
    | exact Option.noConfusion h
    | (injection h with h2; subst h2;
       exact ⟨⟨_, _, rfl, rfl, by decide⟩, _, _, rfl, rfl⟩)

theorem ret_shape_get_user_profile (sys : Sys) (u sct : String) (r : JVal)
    (h : get_user_profile sys u sct = some r) : statusOk r := by
  simp only [get_user_profile] at h
  repeat' split at h
  all_goals first
    | exact Option.noConfusion h
    | (injection h with h2; subst h2;
       exact ⟨_, _, rfl, rfl, by decide⟩)

/-- C9 amended: every exposed engine operation that returns does so with a
structure whose `status` is `success`, `error` or `info`; all of them
except `get_current_tasks` and `get_user_profile` also carry a
human-readable `message` field (those two return their data with a bare
`success` status and no message). -/
theorem engine_ops_return_shape :
    (∀ (tau : Nat → String) (sys : Sys) (u : String) (p : Sys × JVal),
      initialize_user_profile tau sys u = some p → statusOk p.2 ∧ hasMessage p.2) ∧
    (∀ (tau : Nat → String) (sys : Sys) (u : String)
        (upd : List (String × JVal)) (p : Sys × JVal),
      update_personal_info tau sys u upd = some p → statusOk p.2 ∧ hasMessage p.2) ∧
    (∀ (tau : Nat → String) (sys : Sys) (u : String)
        (upd : List (String × JVal)) (p : Sys × JVal),
      update_daily_routine tau sys u upd = some p → statusOk p.2 ∧ hasMessage p.2) ∧
    (∀ (tau sigma : Nat → String) (sys : Sys) (u descr prio due : String)
        (p : Sys × JVal),
      add_task tau sigma sys u descr prio due = some p → statusOk p.2 ∧ hasMessage p.2) ∧
    (∀ (tau : Nat → String) (sys : Sys) (u tid : String) (p : Sys × JVal),
      complete_task tau sys u tid = some p → statusOk p.2 ∧ hasMessage p.2) ∧
    (∀ (sys : Sys) (u : String) (r : JVal),
      get_current_tasks sys u = some r → statusOk r) ∧
    (∀ (tau : Nat → String) (sys : Sys) (u : String)
        (upd : List (String × JVal)) (p : Sys × JVal),
      update_productivity_insights tau sys u upd = some p →
        statusOk p.2 ∧ hasMessage p.2) ∧
    (∀ (tau : Nat → String) (sys : Sys) (u category item : String)
        (p : Sys × JVal),
      add_habit_or_blocker tau sys u category item = some p →
        statusOk p.2 ∧ hasMessage p.2) ∧
    (∀ (sys : Sys) (u sct : String) (r : JVal),
      get_user_profile sys u sct = some r → statusOk r) :=
  ⟨ret_shape_initialize_user_profile, ret_shape_update_personal_info,
   ret_shape_update_daily_routine, ret_shape_add_task, ret_shape_complete_task,
   ret_shape_get_current_tasks, ret_shape_update_productivity_insights,
   ret_shape_add_habit_or_blocker, ret_shape_get_user_profile⟩

/-- C9 counterexample: `get_current_tasks` answers with no `message` field
at all, refuting the claim that every exposed operation returns one. -/
theorem get_current_tasks_no_message_cex :
    get_current_tasks (Sys.mk [] 0) "Chris" =
      some (jobj [("status", js "success"), ("current_tasks", jarr []),
        ("count", jn 0)]) ∧
    dlookup [("status", js "success"), ("current_tasks", jarr []),
      ("count", jn 0)] "message" = none :=
  ⟨rfl, rfl⟩

/-- Witness for C9 (amended): a concrete empty personal-info update. -/
theorem engine_ops_return_shape_witness :
    update_personal_info tickName (Sys.mk [] 0) "Chris" [] =
      some (Sys.mk [] 0, jobj [("status", js "error"),
        ("message", js "No information provided to update")]) ∧
    statusOk (jobj [("status", js "error"),
        ("message", js "No information provided to update")]) ∧
    hasMessage (jobj [("status", js "error"),
        ("message", js "No information provided to update")]) :=
  ⟨rfl, engine_ops_return_shape.2.1 tickName (Sys.mk [] 0) "Chris" []
    (Sys.mk [] 0, jobj [("status", js "error"),
      ("message", js "No information provided to update")]) rfl⟩

/-- Behaviour of `update_user_section` on a stored document whose target
section and metadata are both dicts, for a dict payload and a section other
than `metadata`. -/
theorem update_user_section_spec (tau : Nat → String) (sys : Sys)
    (u sect : String) (d m sec dta : List (String × JVal))
    (hsect : sect ≠ "metadata")
    (hdoc : storeGet sys.store (docId u) = some (jobj d))
    (hmd : dlookup d "metadata" = some (jobj m))
    (hsec : dlookup d sect = some (jobj sec)) :
    update_user_section tau sys u sect (jobj dta) =
      some ({ store := storeUpsert sys.store (docId u)
                (jobj (dinsert (dinsert d sect (jobj (dupdate sec dta)))
                  "metadata"
                  (jobj (dinsert m "last_updated" (js (tau sys.clk)))))),
              clk := sys.clk + 1 }, true) := by
  have hfetch : fetchOrInit tau sys u = some (sys, d) := by
    simp [fetchOrInit, hdoc]
  have hmd2 : dlookup (dinsert d sect (jobj (dupdate sec dta))) "metadata"
      = some (jobj m) := by
    rw [dlookup_dinsert]
    simp [hsect, hmd]
  simp only [update_user_section, hfetch, hmd, hsec, hmd2,
    Option.isNone_some, Bool.false_eq_true, if_false]

/-- C1 amended: for every stored document whose target section value and
metadata are key-value structures and every key-value payload with distinct
keys, `updateSection` on a section other than `metadata` performs a shallow
merge — every key of the payload maps to its payload value, and every key
present only in the pre-existing section keeps its old value.  (On the
`metadata` section itself the subsequent `last_updated` refresh can
overwrite the merged value of that one key.) -/
theorem updateSection_shallow_merge (tau : Nat → String) (sys : Sys)
    (u sect : String) (d m sec dta : List (String × JVal))
    (hsect : sect ≠ "metadata")
    (hdoc : storeGet sys.store (docId u) = some (jobj d))
    (hmd : dlookup d "metadata" = some (jobj m))
    (hsec : dlookup d sect = some (jobj sec))
    (hnd : (dta.map Prod.fst).Nodup) :
    ∃ d' : List (String × JVal),
      update_user_section tau sys u sect (jobj dta) =
        some ({ store := storeUpsert sys.store (docId u) (jobj d'),
                clk := sys.clk + 1 }, true) ∧
      dlookup d' sect = some (jobj (dupdate sec dta)) ∧
      (∀ (q : String) (v : JVal),
        dlookup dta q = some v → dlookup (dupdate sec dta) q = some v) ∧
      (∀ q : String,
        dlookup dta q = none → dlookup (dupdate sec dta) q = dlookup sec q) := by
  refine ⟨_, update_user_section_spec tau sys u sect d m sec dta hsect hdoc hmd hsec,
    ?_, ?_, ?_⟩
  · rw [dlookup_dinsert]
    have : ¬ "metadata" = sect := fun h => hsect h.symm
    rw [if_neg this, dlookup_dinsert, if_pos rfl]
  · intro q v hq
    exact dlookup_dupdate_some sec dta q v hnd hq
  · intro q hq
    exact dlookup_dupdate_not_mem sec dta q hq

/-- C1 counterexample: on the `metadata` section the merged value of
`last_updated` is immediately overwritten by the refresh, so the payload
key does not keep its payload value. -/
theorem updateSection_metadata_overwrite_cex :
    ((update_user_section tickName
        (Sys.mk [(docId "Chris", jobj [("metadata", jobj
          [("created_at", js "c"), ("last_updated", js "l"),
           ("version", jn 1)])])] 0)
        "Chris" "metadata" (jobj [("last_updated", js "nope")])).map
      (fun p => metaField p.1 "Chris" "last_updated"))
      = some (some (js "0")) ∧
    js "0" ≠ js "nope" := by
  constructor
  · rfl
  · intro h
    injection h with h2
    exact absurd h2 (by decide)

/-- Witness for C1 (amended): the spec's own example, a `name` update after
an `age` update on `personal_info`. -/
theorem updateSection_shallow_merge_witness :
    storeGet [(docId "Chris", jobj
        [("personal_info", jobj [("age", jn 30)]),
         ("metadata", jobj [("created_at", js "c"), ("last_updated", js "l"),
          ("version", jn 1)])])] (docId "Chris")
      = some (jobj [("personal_info", jobj [("age", jn 30)]),
         ("metadata", jobj [("created_at", js "c"), ("last_updated", js "l"),
          ("version", jn 1)])]) ∧
    dupdate [("age", jn 30)] [("name", js "Alex")]
      = [("age", jn 30), ("name", js "Alex")] ∧
    (∃ d' : List (String × JVal),
      update_user_section tickName
        (Sys.mk [(docId "Chris", jobj
          [("personal_info", jobj [("age", jn 30)]),
           ("metadata", jobj [("created_at", js "c"), ("last_updated", js "l"),
            ("version", jn 1)])])] 0)
        "Chris" "personal_info" (jobj [("name", js "Alex")]) =
        some ({ store := storeUpsert [(docId "Chris", jobj
            [("personal_info", jobj [("age", jn 30)]),
             ("metadata", jobj [("created_at", js "c"), ("last_updated", js "l"),
              ("version", jn 1)])])] (docId "Chris") (jobj d'),
                clk := 0 + 1 }, true) ∧
      dlookup d' "personal_info"
        = some (jobj (dupdate [("age", jn 30)] [("name", js "Alex")])) ∧
      (∀ (q : String) (v : JVal),
        dlookup [("name", js "Alex")] q = some v →
          dlookup (dupdate [("age", jn 30)] [("name", js "Alex")]) q = some v) ∧
      (∀ q : String,
        dlookup [("name", js "Alex")] q = none →
          dlookup (dupdate [("age", jn 30)] [("name", js "Alex")]) q
            = dlookup [("age", jn 30)] q)) :=
  ⟨rfl, rfl,
    updateSection_shallow_merge tickName
      (Sys.mk [(docId "Chris", jobj
        [("personal_info", jobj [("age", jn 30)]),
         ("metadata", jobj [("created_at", js "c"), ("last_updated", js "l"),
          ("version", jn 1)])])] 0)
      "Chris" "personal_info" _ _ _ _ (by decide) rfl rfl rfl (by decide)⟩

/-- A key bound in the defaults is bound after backfilling. -/
theorem dlookup_backfill_isSome (ds ed : List (String × JVal)) (q : String)
    (hnd : (ds.map Prod.fst).Nodup) (h : (dlookup ds q).isSome) :
    (dlookup (backfill ds ed) q).isSome := by
  cases hds : dlookup ds q with
  | none => rw [hds] at h; cases h
  | some v =>
    cases hed : dlookup ed q with
    | none => rw [dlookup_backfill_absent ds ed q v hnd hed hds]; rfl
    | some w => rw [dlookup_backfill_present ds ed q w hed]; rfl

/-- C3: on an already-existing document (with a well-formed metadata slot),
`initialize` adds exactly the absent default sections with their default
values, leaves present sections untouched apart from refreshing
`metadata.last_updated`, writes the result, and succeeds. -/
theorem initialize_existing_backfills (tau : Nat → String) (sys : Sys)
    (u : String) (ed : List (String × JVal))
    (hdoc : storeGet sys.store (docId u) = some (jobj ed))
    (hmdOk : objOrAbsent (dlookup ed "metadata") = true) :
    ∃ ed2 m2 : List (String × JVal),
      initialize_user_schema tau sys u none =
        some ({ store := storeUpsert sys.store (docId u) (jobj ed2),
                clk := sys.clk + 4 }, true) ∧
      (∀ (q : String) (v : JVal), q ≠ "metadata" →
        dlookup ed q = some v → dlookup ed2 q = some v) ∧
      (∀ (q : String) (v : JVal), q ≠ "metadata" →
        dlookup ed q = none →
        dlookup (default_schema (tau sys.clk) (tau (sys.clk + 1))) q = some v →
        dlookup ed2 q = some v) ∧
      (∀ q : String, q ≠ "metadata" →
        dlookup ed q = none →
        dlookup (default_schema (tau sys.clk) (tau (sys.clk + 1))) q = none →
        dlookup ed2 q = none) ∧
      (∀ s ∈ ["personal_info", "daily_routine", "habits_and_behaviors",
              "task_tracking", "productivity_insights", "preferences",
              "metadata"], (dlookup ed2 s).isSome) ∧
      dlookup ed2 "metadata" = some (jobj m2) ∧
      dlookup m2 "last_updated" = some (js (tau (sys.clk + 3))) ∧
      (∀ (mm : List (String × JVal)) (q : String) (v : JVal),
        dlookup ed "metadata" = some (jobj mm) → q ≠ "last_updated" →
        dlookup mm q = some v → dlookup m2 q = some v) := by
  have h1 : dlookup (default_schema (tau sys.clk) (tau (sys.clk + 1)))
      "metadata" = some (jobj [("created_at", js (tau sys.clk)),
        ("last_updated", js (tau (sys.clk + 1))), ("version", jn 1)]) := rfl
  set md2 := dinsert [("created_at", js (tau sys.clk)),
    ("last_updated", js (tau (sys.clk + 1))), ("version", jn 1)]
    "last_updated" (js (tau (sys.clk + 2))) with hmd2def
  set ds2 := dinsert (default_schema (tau sys.clk) (tau (sys.clk + 1)))
    "metadata" (jobj md2) with hds2def
  have hndds2 : (ds2.map Prod.fst).Nodup := by
    have hkeys : ds2.map Prod.fst
        = ["personal_info", "daily_routine", "habits_and_behaviors",
           "task_tracking", "productivity_insights", "preferences",
           "metadata"] := rfl
    rw [hkeys]
    decide
  have hds2q : ∀ q : String, q ≠ "metadata" →
      dlookup ds2 q
        = dlookup (default_schema (tau sys.clk) (tau (sys.clk + 1))) q := by
    intro q hq
    rw [hds2def, dlookup_dinsert, if_neg (fun h => hq h.symm)]
  have hds2md : dlookup ds2 "metadata" = some (jobj md2) := by
    rw [hds2def, dlookup_dinsert, if_pos rfl]
  cases hmd : dlookup ed "metadata" with
  | some v =>
    cases v with
    | jobj mm =>
      have hed1md : dlookup (backfill ds2 ed) "metadata" = some (jobj mm) :=
        dlookup_backfill_present _ _ _ _ hmd
      refine ⟨dinsert (backfill ds2 ed) "metadata"
          (jobj (dinsert mm "last_updated" (js (tau (sys.clk + 3))))),
        dinsert mm "last_updated" (js (tau (sys.clk + 3))),
        ?_, ?_, ?_, ?_, ?_, ?_, ?_, ?_⟩
      · simp only [initialize_user_schema, h1, hdoc, ← hmd2def, ← hds2def,
          hed1md]
      · intro q v hq hv
        rw [dlookup_dinsert, if_neg (fun h => hq h.symm)]
        exact dlookup_backfill_present _ _ _ _ hv
      · intro q v hq habs hdef
        rw [dlookup_dinsert, if_neg (fun h => hq h.symm)]
        exact dlookup_backfill_absent _ _ _ _ hndds2 habs
          ((hds2q q hq).trans hdef)
      · intro q hq habs hdef
        rw [dlookup_dinsert, if_neg (fun h => hq h.symm),
          dlookup_backfill_not_mem _ _ _ ((hds2q q hq).trans hdef)]
        exact habs
      · intro s hs
        fin_cases hs <;> rw [dlookup_dinsert] <;> simp <;>
          exact dlookup_backfill_isSome _ _ _ hndds2 (by rfl)
      · rw [dlookup_dinsert, if_pos rfl]
      · rw [dlookup_dinsert, if_pos rfl]
      · intro mm' q v hmm hq hv
        injection hmm with hmm2
        injection hmm2 with hmm3
        subst hmm3
        rw [dlookup_dinsert, if_neg (fun h => hq h.symm)]
        exact hv
    | null => simp [objOrAbsent, hmd] at hmdOk
    | jb b => simp [objOrAbsent, hmd] at hmdOk
    | jn n => simp [objOrAbsent, hmd] at hmdOk
    | js s => simp [objOrAbsent, hmd] at hmdOk
    | jarr l => simp [objOrAbsent, hmd] at hmdOk
  | none =>
    have hed1md : dlookup (backfill ds2 ed) "metadata" = some (jobj md2) :=
      dlookup_backfill_absent _ _ _ _ hndds2 hmd hds2md
    refine ⟨dinsert (backfill ds2 ed) "metadata"
        (jobj (dinsert md2 "last_updated" (js (tau (sys.clk + 3))))),
      dinsert md2 "last_updated" (js (tau (sys.clk + 3))),
      ?_, ?_, ?_, ?_, ?_, ?_, ?_, ?_⟩
    · simp only [initialize_user_schema, h1, hdoc, ← hmd2def, ← hds2def,
        hed1md]
    · intro q v hq hv
      rw [dlookup_dinsert, if_neg (fun h => hq h.symm)]
      exact dlookup_backfill_present _ _ _ _ hv
    · intro q v hq habs hdef
      rw [dlookup_dinsert, if_neg (fun h => hq h.symm)]
      exact dlookup_backfill_absent _ _ _ _ hndds2 habs
        ((hds2q q hq).trans hdef)
    · intro q hq habs hdef
      rw [dlookup_dinsert, if_neg (fun h => hq h.symm),
        dlookup_backfill_not_mem _ _ _ ((hds2q q hq).trans hdef)]
      exact habs
    · intro s hs
      fin_cases hs <;> rw [dlookup_dinsert] <;> simp <;>
        exact dlookup_backfill_isSome _ _ _ hndds2 (by rfl)
    · rw [dlookup_dinsert, if_pos rfl]
    · rw [dlookup_dinsert, if_pos rfl]
    · intro mm' q v hmm hq hv
      exact Option.noConfusion hmm

/-- Witness for C3: an existing document holding only a `personal_info`
section and a metadata dict. -/
theorem initialize_existing_backfills_witness :
    storeGet [(docId "Chris", jobj
        [("personal_info", jobj [("name", js "Bob")]),
         ("metadata", jobj [("created_at", js "c"), ("last_updated", js "l"),
          ("version", jn 1)])])] (docId "Chris")
      = some (jobj [("personal_info", jobj [("name", js "Bob")]),
         ("metadata", jobj [("created_at", js "c"), ("last_updated", js "l"),
          ("version", jn 1)])]) ∧
    (∃ ed2 m2 : List (String × JVal),
      initialize_user_schema tickName
        (Sys.mk [(docId "Chris", jobj
          [("personal_info", jobj [("name", js "Bob")]),
           ("metadata", jobj [("created_at", js "c"), ("last_updated", js "l"),
            ("version", jn 1)])])] 0) "Chris" none =
        some ({ store := storeUpsert [(docId "Chris", jobj
            [("personal_info", jobj [("name", js "Bob")]),
             ("metadata", jobj [("created_at", js "c"), ("last_updated", js "l"),
              ("version", jn 1)])])] (docId "Chris") (jobj ed2),
                clk := 0 + 4 }, true) ∧
      dlookup ed2 "personal_info" = some (jobj [("name", js "Bob")]) ∧
      (dlookup ed2 "task_tracking").isSome ∧
      dlookup ed2 "metadata" = some (jobj m2) ∧
      dlookup m2 "created_at" = some (js "c") ∧
      dlookup m2 "last_updated" = some (js (tickName 3))) := by
  constructor
  · rfl
  · obtain ⟨ed2, m2, heq, hpres, hadd, hnone, hall, hmd, hlu, hmfix⟩ :=
      initialize_existing_backfills tickName
        (Sys.mk [(docId "Chris", jobj
          [("personal_info", jobj [("name", js "Bob")]),
           ("metadata", jobj [("created_at", js "c"), ("last_updated", js "l"),
            ("version", jn 1)])])] 0) "Chris" _ rfl rfl
    refine ⟨ed2, m2, heq, ?_, ?_, hmd, ?_, ?_⟩
    · exact hpres "personal_info" _ (by decide) rfl
    · exact hall "task_tracking" (by decide)
    · exact hmfix _ "created_at" _ rfl (by decide) rfl
    · exact hlu

/-- Appending the string makes Python `in` find it. -/
theorem memS_append_self (l : List JVal) (s : String) :
    memS (l ++ [js s]) s = true := by
  induction l with
  | nil => simp [memS]
  | cons x rest ih => cases x <;> simp [memS, ih]

/-- Appending one occurrence bumps the count by one. -/
theorem countS_append_one (l : List JVal) (s : String) :
    countS (l ++ [js s]) s = countS l s + 1 := by
  induction l with
  | nil => simp [countS]
  | cons x rest ih =>
    cases x with
    | js v =>
      show (if v = s then 1 else 0) + countS (rest ++ [js s]) s
        = (if v = s then 1 else 0) + countS rest s + 1
      rw [ih, Nat.add_assoc]
    | null => exact ih
    | jb b => exact ih
    | jn n => exact ih
    | jarr a => exact ih
    | jobj o => exact ih

/-- A string Python `in` does not find occurs zero times. -/
theorem countS_eq_zero_of_not_memS (l : List JVal) (s : String)
    (h : memS l s = false) : countS l s = 0 := by
  induction l with
  | nil => rfl
  | cons x rest ih =>
    cases x with
    | js v =>
      simp only [memS, Bool.or_eq_false_iff, decide_eq_false_iff_not] at h
      simp [countS, h.1, ih h.2]
    | null => exact ih h
    | jb b => exact ih h
    | jn n => exact ih h
    | jarr a => exact ih h
    | jobj o => exact ih h

/-- Overwriting an existing key leaves the key list unchanged. -/
theorem dinsert_keys_of_mem (l : List (String × JVal)) (k : String) (v : JVal)
    (h : (dlookup l k).isSome) :
    (dinsert l k v).map Prod.fst = l.map Prod.fst := by
  induction l with
  | nil => rw [dlookup] at h; cases h
  | cons kv rest ih =>
    obtain ⟨a, b⟩ := kv
    by_cases hak : a = k
    · simp [dinsert, hak]
    · have h2 : (dlookup rest k).isSome := by
        rw [dlookup, if_neg hak] at h
        exact h
      simp [dinsert, hak, ih h2]

/-- Reading back the document just upserted. -/
theorem storeGet_upsert_same (st : List (String × JVal)) (k : String)
    (v : JVal) : storeGet (storeUpsert st k v) k = some v := by
  rw [storeGet, storeUpsert, dlookup_dinsert, if_pos rfl]

/-- An item already in the target list makes `add_habit_or_blocker` answer
`info` without writing. -/
theorem addHabit_already_present (tau : Nat → String) (sys : Sys)
    (u cat item : String) (d hb : List (String × JVal)) (l : List JVal)
    (hcat : cat = "procrastination_habits" ∨ cat = "known_blockers")
    (hdoc : storeGet sys.store (docId u) = some (jobj d))
    (hhb : dlookup d "habits_and_behaviors" = some (jobj hb))
    (hcatl : dlookup hb cat = some (jarr l))
    (hmem : memS l item = true) :
    add_habit_or_blocker tau sys u cat item =
      some (sys, jobj [("status", js "info"),
        ("message", js (item ++ " already exists in " ++ cat))]) := by
  have hif : (decide (cat ≠ "procrastination_habits") &&
      decide (cat ≠ "known_blockers")) = false := by
    rcases hcat with rfl | rfl <;> decide
  have hgs : get_user_section sys u (some "habits_and_behaviors")
      = some (jobj hb) := by
    simp [get_user_section, hdoc, dget, hhb]
  simp only [add_habit_or_blocker, hif, Bool.false_eq_true, if_false, hgs,
    hcatl, Option.isSome_some, if_true, hmem]

/-- C6: `add_habit_or_blocker` rejects unknown categories without writing,
answers `info` without writing when the item is already present, and
otherwise appends the item exactly once; a second identical call then
answers `info` and leaves the single occurrence in place. -/
theorem addHabitOrBlocker_dedup :
    (∀ (tau : Nat → String) (sys : Sys) (u cat item : String),
      cat ≠ "procrastination_habits" → cat ≠ "known_blockers" →
        add_habit_or_blocker tau sys u cat item =
          some (sys, jobj [("status", js "error"),
            ("message",
             js "Category must be procrastination_habits or known_blockers")])) ∧
    (∀ (tau : Nat → String) (sys : Sys) (u cat item : String)
        (d hb : List (String × JVal)) (l : List JVal),
      (cat = "procrastination_habits" ∨ cat = "known_blockers") →
      storeGet sys.store (docId u) = some (jobj d) →
      dlookup d "habits_and_behaviors" = some (jobj hb) →
      dlookup hb cat = some (jarr l) → memS l item = true →
        add_habit_or_blocker tau sys u cat item =
          some (sys, jobj [("status", js "info"),
            ("message", js (item ++ " already exists in " ++ cat))])) ∧
    (∀ (tau : Nat → String) (sys : Sys) (u cat item : String)
        (d m hb : List (String × JVal)) (l : List JVal),
      (cat = "procrastination_habits" ∨ cat = "known_blockers") →
      storeGet sys.store (docId u) = some (jobj d) →
      dlookup d "metadata" = some (jobj m) →
      dlookup d "habits_and_behaviors" = some (jobj hb) →
      (hb.map Prod.fst).Nodup →
      dlookup hb cat = some (jarr l) → memS l item = false →
        ∃ sys1 : Sys,
          add_habit_or_blocker tau sys u cat item =
            some (sys1, jobj [("status", js "success"),
              ("message", js ("Added " ++ item ++ " to " ++ cat))]) ∧
          habitListOf sys1 u cat = some (l ++ [js item]) ∧
          countS (l ++ [js item]) item = 1 ∧
          (∀ tau2 : Nat → String,
            add_habit_or_blocker tau2 sys1 u cat item =
              some (sys1, jobj [("status", js "info"),
                ("message", js (item ++ " already exists in " ++ cat))]))) := by
  refine ⟨?_, ?_, ?_⟩
  · intro tau sys u cat item h1 h2
    have hif : (decide (cat ≠ "procrastination_habits") &&
        decide (cat ≠ "known_blockers")) = true := by
      rw [decide_eq_true h1, decide_eq_true h2]
      rfl
    simp only [add_habit_or_blocker, hif, if_true]
  · intro tau sys u cat item d hb l hcat hdoc hhb hcatl hmem
    exact addHabit_already_present tau sys u cat item d hb l hcat hdoc hhb
      hcatl hmem
  · intro tau sys u cat item d m hb l hcat hdoc hmd hhb hnd hcatl hmem
    have hif : (decide (cat ≠ "procrastination_habits") &&
        decide (cat ≠ "known_blockers")) = false := by
      rcases hcat with rfl | rfl <;> decide
    have hgs : get_user_section sys u (some "habits_and_behaviors")
        = some (jobj hb) := by
      simp [get_user_section, hdoc, dget, hhb]
    have hsect : "habits_and_behaviors" ≠ "metadata" := by decide
    have hspec := update_user_section_spec tau sys u "habits_and_behaviors"
      d m hb (dinsert hb cat (jarr (l ++ [js item]))) hsect hdoc hmd hhb
    have hndnew : ((dinsert hb cat (jarr (l ++ [js item]))).map Prod.fst).Nodup := by
      rw [dinsert_keys_of_mem hb cat _ (by rw [hcatl]; rfl)]
      exact hnd
    have hlknew : dlookup (dupdate hb (dinsert hb cat (jarr (l ++ [js item]))))
        cat = some (jarr (l ++ [js item])) := by
      apply dlookup_dupdate_some _ _ _ _ hndnew
      rw [dlookup_dinsert, if_pos rfl]
    refine ⟨Sys.mk (storeUpsert sys.store (docId u)
        (jobj (dinsert (dinsert d "habits_and_behaviors"
          (jobj (dupdate hb (dinsert hb cat (jarr (l ++ [js item]))))))
          "metadata" (jobj (dinsert m "last_updated" (js (tau sys.clk)))))))
        (sys.clk + 1), ?_, ?_, ?_, ?_⟩
    · simp only [add_habit_or_blocker, hif, Bool.false_eq_true, if_false, hgs,
        hcatl, Option.isSome_some, if_true, hmem, hspec]
    · simp only [habitListOf, docField, storedDoc, storeGet_upsert_same,
        dlookup_dinsert, hlknew]
      simp [hlknew]
    · rw [countS_append_one, countS_eq_zero_of_not_memS l item hmem]
    · intro tau2
      have hdoc2 : storeGet (Sys.mk (storeUpsert sys.store (docId u)
          (jobj (dinsert (dinsert d "habits_and_behaviors"
            (jobj (dupdate hb (dinsert hb cat (jarr (l ++ [js item]))))))
            "metadata" (jobj (dinsert m "last_updated" (js (tau sys.clk)))))))
          (sys.clk + 1)).store (docId u)
          = some (jobj (dinsert (dinsert d "habits_and_behaviors"
            (jobj (dupdate hb (dinsert hb cat (jarr (l ++ [js item]))))))
            "metadata" (jobj (dinsert m "last_updated" (js (tau sys.clk)))))) :=
        storeGet_upsert_same _ _ _
      have hhb2 : dlookup (dinsert (dinsert d "habits_and_behaviors"
            (jobj (dupdate hb (dinsert hb cat (jarr (l ++ [js item]))))))
            "metadata" (jobj (dinsert m "last_updated" (js (tau sys.clk)))))
            "habits_and_behaviors"
          = some (jobj (dupdate hb (dinsert hb cat (jarr (l ++ [js item]))))) := by
        rw [dlookup_dinsert, if_neg (by decide), dlookup_dinsert, if_pos rfl]
      exact addHabit_already_present tau2 _ u cat item _ _ _ hcat hdoc2 hhb2
        hlknew (memS_append_self l item)

/-- Witness for C6 at a concrete well-formed document. -/
theorem addHabitOrBlocker_dedup_witness :
    add_habit_or_blocker tickName (Sys.mk [] 0) "Chris" "bogus_category" "x" =
      some (Sys.mk [] 0, jobj [("status", js "error"),
        ("message",
         js "Category must be procrastination_habits or known_blockers")]) ∧
    (∃ sys1 : Sys,
      add_habit_or_blocker tickName
        (Sys.mk [(docId "Chris", jobj
          [("habits_and_behaviors", jobj
            [("procrastination_habits", jarr []), ("known_blockers", jarr [])]),
           ("metadata", jobj [("created_at", js "c"), ("last_updated", js "l"),
            ("version", jn 1)])])] 0)
        "Chris" "procrastination_habits" "doom scrolling" =
        some (sys1, jobj [("status", js "success"),
          ("message", js ("Added " ++ "doom scrolling" ++ " to "
            ++ "procrastination_habits"))]) ∧
      habitListOf sys1 "Chris" "procrastination_habits"
        = some ([] ++ [js "doom scrolling"]) ∧
      countS ([] ++ [js "doom scrolling"]) "doom scrolling" = 1 ∧
      (∀ tau2 : Nat → String,
        add_habit_or_blocker tau2 sys1 "Chris" "procrastination_habits"
            "doom scrolling" =
          some (sys1, jobj [("status", js "info"),
            ("message", js ("doom scrolling" ++ " already exists in "
              ++ "procrastination_habits"))]))) :=
  ⟨addHabitOrBlocker_dedup.1 tickName (Sys.mk [] 0) "Chris" "bogus_category"
"x" (by decide) (by decide),
   addHabitOrBlocker_dedup.2.2 tickName _ "Chris" "procrastination_habits"
    "doom scrolling" _ _ _ [] (Or.inl rfl) rfl rfl rfl (by decide) rfl rfl⟩

/-- The scan loop misses when no entry matches. -/
theorem popTask_no_match (cur : List JVal) (tid : String)
    (hok : taskListOk cur = true)
    (hno : cur.all (fun t => !matchesTid t tid) = true) :
    popTask tid cur = some none := by
  induction cur with
  | nil => rfl
  | cons x rest ih =>
    cases x with
    | jobj f =>
      simp only [List.all_cons, Bool.and_eq_true] at hno
      have hm : jeqStr (dlookup f "task_id") tid = false := by
        have h2 := hno.1
        rwa [Bool.not_eq_true'] at h2
      have hok2 : taskListOk rest = true := hok
      simp only [popTask, hm, Bool.false_eq_true, if_false, ih hok2 hno.2]
    | null => simp [taskListOk] at hok
    | jb b => simp [taskListOk] at hok
    | jn n => simp [taskListOk] at hok
    | js v => simp [taskListOk] at hok
    | jarr a => simp [taskListOk] at hok

/-- The scan loop pops the first matching entry. -/
theorem popTask_first_match (pre : List JVal) (tf : List (String × JVal))
    (post : List JVal) (tid : String)
    (hok : taskListOk pre = true)
    (hno : pre.all (fun t => !matchesTid t tid) = true)
    (hm : matchesTid (jobj tf) tid = true) :
    popTask tid (pre ++ jobj tf :: post) = some (some (tf, pre ++ post)) := by
  induction pre with
  | nil =>
    simp only [List.nil_append, popTask]
    rw [show jeqStr (dlookup tf "task_id") tid = true from hm]
    simp
  | cons x rest ih =>
    cases x with
    | jobj f =>
      simp only [List.all_cons, Bool.and_eq_true] at hno
      have hmf : jeqStr (dlookup f "task_id") tid = false := by
        have h2 := hno.1
        rwa [Bool.not_eq_true'] at h2
      have hok2 : taskListOk rest = true := hok
      simp only [List.cons_append, List.append_eq, popTask, hmf,
        Bool.false_eq_true, if_false, ih hok2 hno.2]
    | null => simp [taskListOk] at hok
    | jb b => simp [taskListOk] at hok
    | jn n => simp [taskListOk] at hok
    | js v => simp [taskListOk] at hok
    | jarr a => simp [taskListOk] at hok

/-- A well-formed list with a match decomposes at its first match. -/
theorem exists_first_match (cur : List JVal) (tid : String)
    (hok : taskListOk cur = true)
    (hany : cur.any (fun t => matchesTid t tid) = true) :
    ∃ (pre : List JVal) (tf : List (String × JVal)) (post : List JVal),
      cur = pre ++ jobj tf :: post ∧ taskListOk pre = true ∧
      pre.all (fun t => !matchesTid t tid) = true ∧
      matchesTid (jobj tf) tid = true := by
  induction cur with
  | nil => cases hany
  | cons x rest ih =>
    cases x with
    | jobj f =>
      by_cases hm : matchesTid (jobj f) tid = true
      · exact ⟨[], f, rest, rfl, rfl, rfl, hm⟩
      · have hany2 : rest.any (fun t => matchesTid t tid) = true := by
          simp only [List.any_cons, Bool.or_eq_true] at hany
          rcases hany with h | h
          · exact absurd h hm
          · exact h
        obtain ⟨pre, tf, post, hdec, hokp, hnop, hmt⟩ := ih hok hany2
        refine ⟨jobj f :: pre, tf, post, by rw [hdec, List.cons_append], hokp, ?_, hmt⟩
        simp only [List.all_cons, Bool.and_eq_true]
        exact ⟨by rw [Bool.not_eq_true']; exact Bool.eq_false_iff.mpr hm, hnop⟩
    | null => simp [taskListOk] at hok
    | jb b => simp [taskListOk] at hok
    | jn n => simp [taskListOk] at hok
    | js v => simp [taskListOk] at hok
    | jarr a => simp [taskListOk] at hok

/-- Well-formedness of task lists is preserved by concatenation. -/
theorem taskListOk_append (l1 l2 : List JVal) (h1 : taskListOk l1 = true)
    (h2 : taskListOk l2 = true) : taskListOk (l1 ++ l2) = true := by
  induction l1 with
  | nil => exact h2
  | cons x rest ih =>
    cases x with
    | jobj f => exact ih h1
    | null => simp [taskListOk] at h1
    | jb b => simp [taskListOk] at h1
    | jn n => simp [taskListOk] at h1
    | js v => simp [taskListOk] at h1
    | jarr a => simp [taskListOk] at h1

/-- `_complete_task` on a document whose scan finds no match: reports
`false`, writes nothing. -/
theorem complete_task_not_found (tau : Nat → String) (sys : Sys)
    (u tid : String) (d tt : List (String × JVal)) (cur : List JVal)
    (hdoc : storeGet sys.store (docId u) = some (jobj d))
    (htt : dlookup d "task_tracking" = some (jobj tt))
    (hcur : dlookup tt "current_tasks" = some (jarr cur))
    (hok : taskListOk cur = true)
    (hno : cur.all (fun t => !matchesTid t tid) = true) :
    _complete_task tau sys u tid = some (sys, false) := by
  have hpop : popTask tid cur = some none := popTask_no_match cur tid hok hno
  have htts : (dlookup d "task_tracking").isSome = true := by rw [htt]; rfl
  have hcurs : (dlookup tt "current_tasks").isSome = true := by rw [hcur]; rfl
  by_cases hcs : (dlookup tt "completed_tasks").isSome
  · simp only [_complete_task, hdoc, htts, if_true, htt, hcurs, hcs, hcur,
      hpop, Option.isSome_some]
  · have hcs2 : (dlookup tt "completed_tasks").isSome = false := by
      simpa using hcs
    have hcur2 : dlookup (dinsert tt "completed_tasks" (jarr []))
        "current_tasks" = some (jarr cur) := by
      rw [dlookup_dinsert, if_neg (by decide)]
      exact hcur
    simp only [_complete_task, hdoc, htts, if_true, htt, hcurs, hcs2,
      Bool.false_eq_true, if_false, hcur2, hpop, Option.isSome_some]

/-- `_complete_task` on a document whose scan hits: the popped task moves
to `completed_tasks` with `completed_on` and `status` set, and the result
is written with a refreshed `last_updated`. -/
theorem complete_task_found (tau : Nat → String) (sys : Sys) (u tid : String)
    (d m tt : List (String × JVal)) (comp : List JVal) (pre : List JVal)
    (tf : List (String × JVal)) (post : List JVal)
    (hdoc : storeGet sys.store (docId u) = some (jobj d))
    (htt : dlookup d "task_tracking" = some (jobj tt))
    (hcur : dlookup tt "current_tasks" = some (jarr (pre ++ jobj tf :: post)))
    (hcomp : dlookup tt "completed_tasks" = some (jarr comp))
    (hmd : dlookup d "metadata" = some (jobj m))
    (hokpre : taskListOk pre = true)
    (hno : pre.all (fun t => !matchesTid t tid) = true)
    (hm : matchesTid (jobj tf) tid = true) :
    _complete_task tau sys u tid =
      some (Sys.mk (storeUpsert sys.store (docId u) (jobj
        (dinsert (dinsert d "task_tracking" (jobj
          (dinsert (dinsert tt "current_tasks" (jarr (pre ++ post)))
            "completed_tasks" (jarr (comp ++ [jobj (dinsert (dinsert tf
              "completed_on" (js (tau sys.clk))) "status"
              (js "completed"))])))))
          "metadata" (jobj (dinsert m "last_updated"
            (js (tau (sys.clk + 1))))))))
        (sys.clk + 2), true) := by
  have hpop := popTask_first_match pre tf post tid hokpre hno hm
  have hmds : (dlookup d "metadata").isNone = false := by rw [hmd]; rfl
  have hmd3 : dlookup (dinsert d "task_tracking" (jobj
      (dinsert (dinsert tt "current_tasks" (jarr (pre ++ post)))
        "completed_tasks" (jarr (comp ++ [jobj (dinsert (dinsert tf
          "completed_on" (js (tau sys.clk))) "status"
          (js "completed"))]))))) "metadata" = some (jobj m) := by
    rw [dlookup_dinsert, if_neg (by decide)]
    exact hmd
  simp only [_complete_task, hdoc, htt, hcur, hcomp, hpop, hmds,
    Option.isSome_some, if_true, Bool.false_eq_true, if_false, hmd3]

/-- C4: `completeTask` reports `false` and writes nothing when the document
is missing or no task matches; it moves the first matching task to
`completed_tasks` (with `status = completed` and a `completed_on` stamp)
and refreshes `last_updated` when one matches; its boolean result is `true`
exactly when a match exists, and a repeat call after a unique match returns
`false`, leaving `completed_tasks` without a duplicate. -/
theorem completeTask_iff_found :
    (∀ (tau : Nat → String) (sys : Sys) (u tid : String),
      storeGet sys.store (docId u) = none →
        _complete_task tau sys u tid = some (sys, false)) ∧
    (∀ (tau : Nat → String) (sys : Sys) (u tid : String)
        (d tt : List (String × JVal)) (cur : List JVal),
      storeGet sys.store (docId u) = some (jobj d) →
      dlookup d "task_tracking" = some (jobj tt) →
      dlookup tt "current_tasks" = some (jarr cur) →
      taskListOk cur = true →
      cur.all (fun t => !matchesTid t tid) = true →
        _complete_task tau sys u tid = some (sys, false)) ∧
    (∀ (tau : Nat → String) (sys : Sys) (u tid : String)
        (d m tt : List (String × JVal)) (comp : List JVal) (pre : List JVal)
        (tf : List (String × JVal)) (post : List JVal),
      storeGet sys.store (docId u) = some (jobj d) →
      dlookup d "task_tracking" = some (jobj tt) →
      dlookup tt "current_tasks" = some (jarr (pre ++ jobj tf :: post)) →
      dlookup tt "completed_tasks" = some (jarr comp) →
      dlookup d "metadata" = some (jobj m) →
      taskListOk pre = true →
      pre.all (fun t => !matchesTid t tid) = true →
      matchesTid (jobj tf) tid = true →
        ∃ sys1 : Sys,
          _complete_task tau sys u tid = some (sys1, true) ∧
          currentTasksOf sys1 u = some (pre ++ post) ∧
          completedTasksOf sys1 u = some (comp ++ [jobj (dinsert (dinsert tf
            "completed_on" (js (tau sys.clk))) "status" (js "completed"))]) ∧
          dlookup (dinsert (dinsert tf "completed_on" (js (tau sys.clk)))
            "status" (js "completed")) "status" = some (js "completed") ∧
          dlookup (dinsert (dinsert tf "completed_on" (js (tau sys.clk)))
            "status" (js "completed")) "completed_on"
            = some (js (tau sys.clk)) ∧
          metaField sys1 u "last_updated" = some (js (tau (sys.clk + 1))) ∧
          (∀ tau2 : Nat → String, taskListOk post = true →
            post.all (fun t => !matchesTid t tid) = true →
              _complete_task tau2 sys1 u tid = some (sys1, false))) ∧
    (∀ (tau : Nat → String) (sys : Sys) (u tid : String)
        (d m tt : List (String × JVal)) (cur comp : List JVal),
      storeGet sys.store (docId u) = some (jobj d) →
      dlookup d "task_tracking" = some (jobj tt) →
      dlookup tt "current_tasks" = some (jarr cur) →
      dlookup tt "completed_tasks" = some (jarr comp) →
      dlookup d "metadata" = some (jobj m) →
      taskListOk cur = true →
        ∃ p : Sys × Bool, _complete_task tau sys u tid = some p ∧
          (p.2 = true ↔ cur.any (fun t => matchesTid t tid) = true)) := by
  refine ⟨?_, ?_, ?_, ?_⟩
  · intro tau sys u tid habs
    simp only [_complete_task, habs]
  · intro tau sys u tid d tt cur hdoc htt hcur hok hno
    exact complete_task_not_found tau sys u tid d tt cur hdoc htt hcur hok hno
  · intro tau sys u tid d m tt comp pre tf post hdoc htt hcur hcomp hmd
      hokpre hno hm
    have heq := complete_task_found tau sys u tid d m tt comp pre tf post
      hdoc htt hcur hcomp hmd hokpre hno hm
    have hdoc2 : storeGet (storeUpsert sys.store (docId u) (jobj
        (dinsert (dinsert d "task_tracking" (jobj
          (dinsert (dinsert tt "current_tasks" (jarr (pre ++ post)))
            "completed_tasks" (jarr (comp ++ [jobj (dinsert (dinsert tf
              "completed_on" (js (tau sys.clk))) "status"
              (js "completed"))])))))
          "metadata" (jobj (dinsert m "last_updated"
            (js (tau (sys.clk + 1)))))))) (docId u)
        = some (jobj (dinsert (dinsert d "task_tracking" (jobj
          (dinsert (dinsert tt "current_tasks" (jarr (pre ++ post)))
            "completed_tasks" (jarr (comp ++ [jobj (dinsert (dinsert tf
              "completed_on" (js (tau sys.clk))) "status"
              (js "completed"))])))))
          "metadata" (jobj (dinsert m "last_updated"
            (js (tau (sys.clk + 1))))))) :=
      storeGet_upsert_same _ _ _
    have htt2 : dlookup (dinsert (dinsert d "task_tracking" (jobj
        (dinsert (dinsert tt "current_tasks" (jarr (pre ++ post)))
          "completed_tasks" (jarr (comp ++ [jobj (dinsert (dinsert tf
            "completed_on" (js (tau sys.clk))) "status"
            (js "completed"))])))))
        "metadata" (jobj (dinsert m "last_updated"
          (js (tau (sys.clk + 1)))))) "task_tracking"
        = some (jobj (dinsert (dinsert tt "current_tasks"
            (jarr (pre ++ post))) "completed_tasks"
            (jarr (comp ++ [jobj (dinsert (dinsert tf "completed_on"
              (js (tau sys.clk))) "status" (js "completed"))])))) := by
      rw [dlookup_dinsert, if_neg (by decide), dlookup_dinsert, if_pos rfl]
    have hcur2 : dlookup (dinsert (dinsert tt "current_tasks"
        (jarr (pre ++ post))) "completed_tasks"
        (jarr (comp ++ [jobj (dinsert (dinsert tf "completed_on"
          (js (tau sys.clk))) "status" (js "completed"))])))
        "current_tasks" = some (jarr (pre ++ post)) := by
      rw [dlookup_dinsert, if_neg (by decide), dlookup_dinsert, if_pos rfl]
    refine ⟨_, heq, ?_, ?_, ?_, ?_, ?_, ?_⟩
    · rw [currentTasksOf, docField, storedDoc]
      simp only [hdoc2, htt2, hcur2]
    · rw [completedTasksOf, docField, storedDoc]
      simp only [hdoc2, htt2, dlookup_dinsert]
      simp
    · rw [dlookup_dinsert, if_pos rfl]
    · rw [dlookup_dinsert, if_neg (by decide), dlookup_dinsert, if_pos rfl]
    · rw [metaField, docField, storedDoc]
      simp only [hdoc2, dlookup_dinsert]
      simp
      rw [dlookup_dinsert, if_pos rfl]
    · intro tau2 hokpost hnopost
      exact complete_task_not_found tau2 _ u tid _ _ (pre ++ post) hdoc2 htt2
        hcur2 (taskListOk_append pre post hokpre hokpost)
        (by rw [List.all_append, hno, hnopost]; rfl)
  · intro tau sys u tid d m tt cur comp hdoc htt hcur hcomp hmd hok
    cases hany : cur.any (fun t => matchesTid t tid) with
    | false =>
      have hno : cur.all (fun t => !matchesTid t tid) = true := by
        rw [List.all_eq_true]
        intro x hx
        rw [Bool.not_eq_true']
        rcases List.any_eq_false.mp hany x hx with h
        exact Bool.eq_false_iff.mpr h
      refine ⟨(sys, false), complete_task_not_found tau sys u tid d tt cur
        hdoc htt hcur hok hno, ?_⟩
      simp
    | true =>
      obtain ⟨pre, tf, post, hdec, hokp, hnop, hmt⟩ :=
        exists_first_match cur tid hok hany
      subst hdec
      refine ⟨_, complete_task_found tau sys u tid d m tt comp pre tf post
        hdoc htt hcur hcomp hmd hokp hnop hmt, ?_⟩
      simp

/-- Witness for C4: a missing document reports `false`; a one-task document
reports `true` exactly because the task id matches. -/
theorem completeTask_iff_found_witness :
    _complete_task tickName (Sys.mk [] 0) "Chris" "task_1"
      = some (Sys.mk [] 0, false) ∧
    (∃ p : Sys × Bool,
      _complete_task tickName
        (Sys.mk [(docId "Chris", jobj
          [("task_tracking", jobj
            [("current_tasks", jarr [jobj
              [("task_id", js "task_1"), ("description", js "Write report"),
               ("priority", js "high"), ("status", js "pending")]]),
             ("completed_tasks", jarr [])]),
           ("metadata", jobj [("created_at", js "c"), ("last_updated", js "l"),
            ("version", jn 1)])])] 0) "Chris" "task_1" = some p ∧
      (p.2 = true ↔
        ([jobj [("task_id", js "task_1"), ("description", js "Write report"),
          ("priority", js "high"), ("status", js "pending")]] : List JVal).any
          (fun t => matchesTid t "task_1") = true)) :=
  ⟨completeTask_iff_found.1 tickName (Sys.mk [] 0) "Chris" "task_1" rfl,
   completeTask_iff_found.2.2.2 tickName
    (Sys.mk [(docId "Chris", jobj
      [("task_tracking", jobj
        [("current_tasks", jarr [jobj
          [("task_id", js "task_1"), ("description", js "Write report"),
           ("priority", js "high"), ("status", js "pending")]]),
         ("completed_tasks", jarr [])]),
       ("metadata", jobj [("created_at", js "c"), ("last_updated", js "l"),
        ("version", jn 1)])])] 0) "Chris" "task_1" _ _ _ _ _
    rfl rfl rfl rfl rfl rfl⟩

/-- `update_user_section` on a stored document with dict metadata and a
target section other than `metadata`: whatever the payload and current
section shape, the write replaces the section by some value and only
refreshes `last_updated` inside `metadata`. -/
theorem update_user_section_metadata_effect (tau : Nat → String) (sys : Sys)
    (u sect : String) (data : JVal) (d m : List (String × JVal))
    (hsect : sect ≠ "metadata")
    (hdoc : storeGet sys.store (docId u) = some (jobj d))
    (hmd : dlookup d "metadata" = some (jobj m)) :
    ∃ X : JVal,
      update_user_section tau sys u sect data =
        some (Sys.mk (storeUpsert sys.store (docId u)
          (jobj (dinsert (dinsert d sect X) "metadata"
            (jobj (dinsert m "last_updated" (js (tau sys.clk)))))))
          (sys.clk + 1), true) := by
  have hfetch : fetchOrInit tau sys u = some (sys, d) := by
    simp [fetchOrInit, hdoc]
  have hmdn : (dlookup d "metadata").isNone = false := by rw [hmd]; rfl
  have hkey : ∀ X : JVal, dlookup (dinsert d sect X) "metadata"
      = some (jobj m) := by
    intro X
    rw [dlookup_dinsert, if_neg hsect]
    exact hmd
  cases hs : dlookup d sect with
  | none =>
    exact ⟨data, by simp only [update_user_section, hfetch, hmdn,
      Bool.false_eq_true, if_false, hs, hkey, Option.isNone_some]⟩
  | some v =>
    cases v with
    | jobj secObj =>
      cases data with
      | jobj dObj =>
        exact ⟨jobj (dupdate secObj dObj), by simp only [update_user_section,
          hfetch, hmdn, Bool.false_eq_true, if_false, hs, hkey, Option.isNone_some]⟩
      | null =>
        exact ⟨JVal.null, by simp only [update_user_section, hfetch, hmdn,
          Bool.false_eq_true, if_false, hs, hkey, Option.isNone_some]⟩
      | jb b =>
        exact ⟨jb b, by simp only [update_user_section, hfetch, hmdn,
          Bool.false_eq_true, if_false, hs, hkey, Option.isNone_some]⟩
      | jn n =>
        exact ⟨jn n, by simp only [update_user_section, hfetch, hmdn,
          Bool.false_eq_true, if_false, hs, hkey, Option.isNone_some]⟩
      | js s2 =>
        exact ⟨js s2, by simp only [update_user_section, hfetch, hmdn,
          Bool.false_eq_true, if_false, hs, hkey, Option.isNone_some]⟩
      | jarr a =>
        exact ⟨jarr a, by simp only [update_user_section, hfetch, hmdn,
          Bool.false_eq_true, if_false, hs, hkey, Option.isNone_some]⟩
    | null =>
      exact ⟨data, by simp only [update_user_section, hfetch, hmdn,
        Bool.false_eq_true, if_false, hs, hkey, Option.isNone_some]⟩
    | jb b =>
      exact ⟨data, by simp only [update_user_section, hfetch, hmdn,
        Bool.false_eq_true, if_false, hs, hkey, Option.isNone_some]⟩
    | jn n =>
      exact ⟨data, by simp only [update_user_section, hfetch, hmdn,
        Bool.false_eq_true, if_false, hs, hkey, Option.isNone_some]⟩
    | js s2 =>
      exact ⟨data, by simp only [update_user_section, hfetch, hmdn,
        Bool.false_eq_true, if_false, hs, hkey, Option.isNone_some]⟩
    | jarr a =>
      exact ⟨data, by simp only [update_user_section, hfetch, hmdn,
        Bool.false_eq_true, if_false, hs, hkey, Option.isNone_some]⟩

/-- `_add_task` on a well-formed stored document: appends the task (with a
fresh `last_activity`) to `current_tasks` and refreshes `last_updated`. -/
theorem add_task_mem_effect (tau : Nat → String) (sys : Sys) (u : String)
    (task_data : List (String × JVal)) (d m tt : List (String × JVal))
    (cur : List JVal)
    (hdoc : storeGet sys.store (docId u) = some (jobj d))
    (htt : dlookup d "task_tracking" = some (jobj tt))
    (hcur : dlookup tt "current_tasks" = some (jarr cur))
    (hmd : dlookup d "metadata" = some (jobj m)) :
    _add_task tau sys u task_data =
      some (Sys.mk (storeUpsert sys.store (docId u)
        (jobj (dinsert (dinsert d "task_tracking"
          (jobj (dinsert tt "current_tasks" (jarr (cur ++ [jobj
            (dinsert task_data "last_activity" (js (tau sys.clk)))])))))
          "metadata" (jobj (dinsert m "last_updated"
            (js (tau (sys.clk + 1))))))))
        (sys.clk + 2), true) := by
  have hfetch : fetchOrInit tau sys u = some (sys, d) := by
    simp [fetchOrInit, hdoc]
  have hmdn : (dlookup d "metadata").isNone = false := by rw [hmd]; rfl
  have hmd3 : dlookup (dinsert d "task_tracking"
      (jobj (dinsert tt "current_tasks" (jarr (cur ++ [jobj
        (dinsert task_data "last_activity" (js (tau sys.clk)))])))))
      "metadata" = some (jobj m) := by
    rw [dlookup_dinsert, if_neg (by decide)]
    exact hmd
  simp only [_add_task, hfetch, htt, hcur, hmd, hmdn, Option.isSome_some, Option.isNone_some,
    if_true, Bool.false_eq_true, if_false, hmd3]

/-- `update_habit_streaks` on a well-formed stored document: merges the
payload into `productivity_insights.habit_streaks` and refreshes
`last_updated`. -/
theorem update_habit_streaks_effect (tau : Nat → String) (sys : Sys)
    (u : String) (streaks : List (String × JVal))
    (d m pi0 hs : List (String × JVal))
    (hdoc : storeGet sys.store (docId u) = some (jobj d))
    (hpi : dlookup d "productivity_insights" = some (jobj pi0))
    (hhs : dlookup pi0 "habit_streaks" = some (jobj hs))
    (hmd : dlookup d "metadata" = some (jobj m)) :
    update_habit_streaks tau sys u streaks =
      some (Sys.mk (storeUpsert sys.store (docId u)
        (jobj (dinsert (dinsert d "productivity_insights"
          (jobj (dinsert pi0 "habit_streaks" (jobj (dupdate hs streaks)))))
          "metadata" (jobj (dinsert m "last_updated" (js (tau sys.clk)))))))
        (sys.clk + 1), true) := by
  have hfetch : fetchOrInit tau sys u = some (sys, d) := by
    simp [fetchOrInit, hdoc]
  have hmdn : (dlookup d "metadata").isNone = false := by rw [hmd]; rfl
  have hmd3 : dlookup (dinsert d "productivity_insights"
      (jobj (dinsert pi0 "habit_streaks" (jobj (dupdate hs streaks)))))
      "metadata" = some (jobj m) := by
    rw [dlookup_dinsert, if_neg (by decide)]
    exact hmd
  simp only [update_habit_streaks, hfetch, hpi, hhs, hmd, hmdn,
    Option.isSome_some, Option.isNone_some, if_true, Bool.false_eq_true,
    if_false, hmd3]

/-- Metadata facts about any document written as `body` with only its
`last_updated` refreshed. -/
theorem written_doc_meta (tau : Nat → String) (st : List (String × JVal))
    (u : String) (Y m : List (String × JVal)) (c vv : JVal)
    (base k cl : Nat) (anySys : Sys) (hk : base ≤ k)
    (hc : dlookup m "created_at" = some c)
    (hv : dlookup m "version" = some vv) :
    ∃ d2 m2 : List (String × JVal),
      storeGet (Sys.mk (storeUpsert st (docId u) (jobj (dinsert Y "metadata"
        (jobj (dinsert m "last_updated" (js (tau k))))))) cl).store
        (docId u) = some (jobj d2) ∧
      dlookup d2 "metadata" = some (jobj m2) ∧
      dlookup m2 "created_at" = some c ∧
      dlookup m2 "version" = some vv ∧
      (Sys.mk (storeUpsert st (docId u) (jobj (dinsert Y "metadata"
        (jobj (dinsert m "last_updated" (js (tau k))))))) cl = anySys ∨
        ∃ kk : Nat, base ≤ kk ∧
          dlookup m2 "last_updated" = some (js (tau kk))) := by
  refine ⟨dinsert Y "metadata" (jobj (dinsert m "last_updated" (js (tau k)))),
    dinsert m "last_updated" (js (tau k)), storeGet_upsert_same _ _ _,
    ?_, ?_, ?_, Or.inr ⟨k, hk, ?_⟩⟩
  · rw [dlookup_dinsert, if_pos rfl]
  · rw [dlookup_dinsert, if_neg (by decide)]
    exact hc
  · rw [dlookup_dinsert, if_neg (by decide)]
    exact hv
  · rw [dlookup_dinsert, if_pos rfl]

/-- C8 amended: starting from a stored well-formed document, every engine
mutation that is not `updateSection` aimed at the `metadata` section itself
preserves `metadata.created_at` and `metadata.version`, and either leaves
the state untouched (soft failures and already-present outcomes) or writes
with `metadata.last_updated` refreshed to a clock reading taken during the
call. -/
theorem mutations_preserve_created_at_and_version (tau sigma : Nat → String)
    (u : String) (op : EngineOp) (sys sys1 : Sys)
    (d m tt pi0 hs hb : List (String × JVal)) (cur comp : List JVal)
    (c vv : JVal)
    (hdoc : storeGet sys.store (docId u) = some (jobj d))
    (hmd : dlookup d "metadata" = some (jobj m))
    (hc : dlookup m "created_at" = some c)
    (hv : dlookup m "version" = some vv)
    (htt : dlookup d "task_tracking" = some (jobj tt))
    (hcur : dlookup tt "current_tasks" = some (jarr cur))
    (hcomp : dlookup tt "completed_tasks" = some (jarr comp))
    (hok : taskListOk cur = true)
    (hpi : dlookup d "productivity_insights" = some (jobj pi0))
    (hhs : dlookup pi0 "habit_streaks" = some (jobj hs))
    (hhb : dlookup d "habits_and_behaviors" = some (jobj hb))
    (hopUpd : ∀ (s : String) (dta : JVal),
      op = EngineOp.upd s dta → s ≠ "metadata")
    (hopHab : ∀ cat item : String,
      op = EngineOp.habit cat item → arrOrAbsent (dlookup hb cat) = true)
    (hrun : runOp tau sigma u op sys = some sys1) :
    ∃ d2 m2 : List (String × JVal),
      storeGet sys1.store (docId u) = some (jobj d2) ∧
      dlookup d2 "metadata" = some (jobj m2) ∧
      dlookup m2 "created_at" = some c ∧
      dlookup m2 "version" = some vv ∧
      (sys1 = sys ∨
        ∃ k : Nat, sys.clk ≤ k ∧
          dlookup m2 "last_updated" = some (js (tau k))) := by
  cases op with
  | upd sect dta =>
    have hsect := hopUpd sect dta rfl
    obtain ⟨X, heq⟩ := update_user_section_metadata_effect tau sys u sect dta
      d m hsect hdoc hmd
    simp only [runOp, heq, Option.map_some'] at hrun
    injection hrun with h2
    subst h2
    exact written_doc_meta tau sys.store u _ m c vv sys.clk sys.clk _ sys
      (le_refl _) hc hv
  | addT dsc pr due =>
    have heq := add_task_mem_effect tau (Sys.mk sys.store (sys.clk + 2)) u
      (if due ≠ "" && due.trim ≠ "" then
        dinsert [("task_id", js ("task_" ++ sigma sys.clk)),
          ("description", js dsc), ("priority", js pr),
          ("status", js "pending"), ("created_at", js (tau (sys.clk + 1)))]
          "due_date" (js due)
       else [("task_id", js ("task_" ++ sigma sys.clk)),
          ("description", js dsc), ("priority", js pr),
          ("status", js "pending"), ("created_at", js (tau (sys.clk + 1)))])
      d m tt cur hdoc htt hcur hmd
    simp only [runOp, add_task, heq, Option.map_some'] at hrun
    injection hrun with h2
    subst h2
    exact written_doc_meta tau sys.store u _ m c vv sys.clk (sys.clk + 3) _
      sys (by omega) hc hv
  | compT tid =>
    cases hany : cur.any (fun t => matchesTid t tid) with
    | false =>
      have hno : cur.all (fun t => !matchesTid t tid) = true := by
        rw [List.all_eq_true]
        intro x hx
        rw [Bool.not_eq_true']
        exact Bool.eq_false_iff.mpr (List.any_eq_false.mp hany x hx)
      have hnf := complete_task_not_found tau sys u tid d tt cur hdoc htt
        hcur hok hno
      simp only [runOp, complete_task, hnf, Option.map_some'] at hrun
      injection hrun with h2
      subst h2
      exact ⟨d, m, hdoc, hmd, hc, hv, Or.inl rfl⟩
    | true =>
      obtain ⟨pre, tf, post, hdec, hokp, hnop, hmt⟩ :=
        exists_first_match cur tid hok hany
      subst hdec
      have hfd := complete_task_found tau sys u tid d m tt comp pre tf post
        hdoc htt hcur hcomp hmd hokp hnop hmt
      simp only [runOp, complete_task, hfd, Option.map_some'] at hrun
      injection hrun with h2
      subst h2
      exact written_doc_meta tau sys.store u _ m c vv sys.clk (sys.clk + 1) _
        sys (by omega) hc hv
  | streaks st =>
    have heq := update_habit_streaks_effect tau sys u st d m pi0 hs hdoc hpi
      hhs hmd
    simp only [runOp, heq, Option.map_some'] at hrun
    injection hrun with h2
    subst h2
    exact written_doc_meta tau sys.store u _ m c vv sys.clk sys.clk _ sys
      (le_refl _) hc hv
  | habit cat item =>
    have harr := hopHab cat item rfl
    by_cases hvalid : (decide (cat ≠ "procrastination_habits") &&
        decide (cat ≠ "known_blockers")) = true
    · simp only [runOp, add_habit_or_blocker, hvalid, if_true,
        Option.map_some'] at hrun
      injection hrun with h2
      subst h2
      exact ⟨d, m, hdoc, hmd, hc, hv, Or.inl rfl⟩
    · have hvf : (decide (cat ≠ "procrastination_habits") &&
          decide (cat ≠ "known_blockers")) = false := by
        simpa using hvalid
      have hgs : get_user_section sys u (some "habits_and_behaviors")
          = some (jobj hb) := by
        simp [get_user_section, hdoc, dget, hhb]
      cases hcatv : dlookup hb cat with
      | some v =>
        cases v with
        | jarr l =>
          cases hmem : memS l item with
          | true =>
            simp only [runOp, add_habit_or_blocker, hvf, Bool.false_eq_true,
              if_false, hgs, hcatv, Option.isSome_some, if_true, hmem,
              Option.map_some'] at hrun
            injection hrun with h2
            subst h2
            exact ⟨d, m, hdoc, hmd, hc, hv, Or.inl rfl⟩
          | false =>
            obtain ⟨X, hequ⟩ := update_user_section_metadata_effect tau sys u
              "habits_and_behaviors"
              (jobj (dinsert hb cat (jarr (l ++ [js item])))) d m (by decide)
              hdoc hmd
            simp only [runOp, add_habit_or_blocker, hvf, Bool.false_eq_true,
              if_false, hgs, hcatv, Option.isSome_some, if_true, hmem,
              hequ, Option.map_some'] at hrun
            injection hrun with h2
            subst h2
            exact written_doc_meta tau sys.store u _ m c vv sys.clk sys.clk _
              sys (le_refl _) hc hv
        | null => simp [arrOrAbsent, hcatv] at harr
        | jb b => simp [arrOrAbsent, hcatv] at harr
        | jn n => simp [arrOrAbsent, hcatv] at harr
        | js s2 => simp [arrOrAbsent, hcatv] at harr
        | jobj o => simp [arrOrAbsent, hcatv] at harr
      | none =>
        have hcat2 : dlookup (dinsert hb cat (jarr [])) cat
            = some (jarr []) := by
          rw [dlookup_dinsert, if_pos rfl]
        obtain ⟨X, hequ⟩ := update_user_section_metadata_effect tau sys u
          "habits_and_behaviors"
          (jobj (dinsert (dinsert hb cat (jarr [])) cat
            (jarr ([] ++ [js item])))) d m (by decide) hdoc hmd
        simp only [runOp, add_habit_or_blocker, hvf, Bool.false_eq_true,
          if_false, hgs, hcatv, Option.isSome_none, if_false, hcat2,
          hequ, Option.map_some'] at hrun
        injection hrun with h2
        subst h2
        exact written_doc_meta tau sys.store u _ m c vv sys.clk sys.clk _
          sys (le_refl _) hc hv

/-- C8 counterexample: `updateSection` aimed at the `metadata` section of a
freshly initialized document rewrites `metadata.version`, so mutations do
not in general leave it at its creation value. -/
theorem updateSection_metadata_version_cex :
    ((initThenOps tickName tickName "Chris"
        [EngineOp.upd "metadata" (jobj [("version", jn 2)])] (Sys.mk [] 0)).map
      (fun s2 => metaField s2 "Chris" "version")) = some (some (jn 2)) ∧
    jn 2 ≠ jn 1 := by
  constructor
  · rfl
  · intro h
    injection h with h2
    exact absurd h2 (by decide)

/-- Witness for C8 (amended): adding a task to a well-formed document. -/
theorem mutations_preserve_created_at_and_version_witness :
    ∃ sys1 : Sys,
      runOp tickName tickName "Chris"
        (EngineOp.addT "Write report" "high" "")
        (Sys.mk [(docId "Chris", jobj
          [("task_tracking", jobj
            [("current_tasks", jarr []), ("completed_tasks", jarr [])]),
           ("productivity_insights", jobj [("habit_streaks", jobj [])]),
           ("habits_and_behaviors", jobj []),
           ("metadata", jobj [("created_at", js "c"), ("last_updated", js "l"),
            ("version", jn 1)])])] 0) = some sys1 ∧
      (∃ d2 m2 : List (String × JVal),
        storeGet sys1.store (docId "Chris") = some (jobj d2) ∧
        dlookup d2 "metadata" = some (jobj m2) ∧
        dlookup m2 "created_at" = some (js "c") ∧
        dlookup m2 "version" = some (jn 1) ∧
        (sys1 = (Sys.mk [(docId "Chris", jobj
          [("task_tracking", jobj
            [("current_tasks", jarr []), ("completed_tasks", jarr [])]),
           ("productivity_insights", jobj [("habit_streaks", jobj [])]),
           ("habits_and_behaviors", jobj []),
           ("metadata", jobj [("created_at", js "c"), ("last_updated", js "l"),
            ("version", jn 1)])])] 0) ∨
          ∃ k : Nat, (Sys.mk [(docId "Chris", jobj
            [("task_tracking", jobj
              [("current_tasks", jarr []), ("completed_tasks", jarr [])]),
             ("productivity_insights", jobj [("habit_streaks", jobj [])]),
             ("habits_and_behaviors", jobj []),
             ("metadata", jobj [("created_at", js "c"),
              ("last_updated", js "l"), ("version", jn 1)])])] 0).clk ≤ k ∧
            dlookup m2 "last_updated" = some (js (tickName k)))) := by
  obtain ⟨sys1, hrun⟩ : ∃ s : Sys, runOp tickName tickName "Chris"
      (EngineOp.addT "Write report" "high" "")
      (Sys.mk [(docId "Chris", jobj
        [("task_tracking", jobj
          [("current_tasks", jarr []), ("completed_tasks", jarr [])]),
         ("productivity_insights", jobj [("habit_streaks", jobj [])]),
         ("habits_and_behaviors", jobj []),
         ("metadata", jobj [("created_at", js "c"), ("last_updated", js "l"),
          ("version", jn 1)])])] 0) = some s := ⟨_, rfl⟩
  refine ⟨sys1, hrun, ?_⟩
  exact mutations_preserve_created_at_and_version tickName tickName "Chris"
    (EngineOp.addT "Write report" "high" "") _ sys1 _ _ _ _ _ _ _ _ _ _
    rfl rfl rfl rfl rfl rfl rfl rfl rfl rfl rfl
    (fun s dta h => EngineOp.noConfusion h)
    (fun cat item h => EngineOp.noConfusion h) hrun

/-- Two generated task ids agree only if their rendered ticks agree. -/
theorem task_prefix_cancel (a b : String)
    (h : "task_" ++ a = "task_" ++ b) : a = b := by
  have hd := congrArg String.data h
  simp only [String.data_append] at hd
  exact String.ext (List.append_cancel_left hd)

/-- The witness oracle is injective. -/
theorem aRun_injective : Function.Injective aRun := by
  intro a b h
  have hd : List.replicate a 'a' = List.replicate b 'a' :=
    congrArg String.data h
  have hl := congrArg List.length hd
  simpa using hl

theorem idsOf_append (l1 l2 : List JVal) :
    idsOf (l1 ++ l2) = idsOf l1 ++ idsOf l2 := by
  simp [idsOf, List.filterMap_append]

theorem idsOf_cons_task (f : List (String × JVal)) (s : String) (l : List JVal)
    (h : dlookup f "task_id" = some (js s)) :
    idsOf (jobj f :: l) = s :: idsOf l := by
  simp [idsOf, List.filterMap_cons, h]

/-- Any id listed for a `TasksFrom` list was rendered from an early tick. -/
theorem mem_idsOf_of_tasksFrom (sigma : Nat → String) (bound : Nat)
    (l : List JVal) (s : String) (hT : TasksFrom sigma bound l)
    (hs : s ∈ idsOf l) :
    ∃ k : Nat, k < bound ∧ s = "task_" ++ sigma k := by
  rw [idsOf] at hs
  obtain ⟨t, htl, hfn⟩ := List.mem_filterMap.mp hs
  obtain ⟨f, k, rfl, hlk, hkb⟩ := hT t htl
  simp only [hlk] at hfn
  injection hfn with h2
  exact ⟨k, hkb, h2.symm⟩

theorem tasksFrom_mono (sigma : Nat → String) (b b2 : Nat) (l : List JVal)
    (h : b ≤ b2) (ht : TasksFrom sigma b l) : TasksFrom sigma b2 l := by
  intro t htl
  obtain ⟨f, k, h1, h2, h3⟩ := ht t htl
  exact ⟨f, k, h1, h2, lt_of_lt_of_le h3 h⟩

theorem tasksFrom_sub (sigma : Nat → String) (b : Nat) (l1 l2 : List JVal)
    (h : ∀ t ∈ l1, t ∈ l2) (ht : TasksFrom sigma b l2) :
    TasksFrom sigma b l1 :=
  fun t htl => ht t (h t htl)

/-- A `TasksFrom` list satisfies the dict-entries shape the scan needs. -/
theorem taskListOk_of_TasksFrom (sigma : Nat → String) (b : Nat)
    (l : List JVal) (h : TasksFrom sigma b l) : taskListOk l = true := by
  induction l with
  | nil => rfl
  | cons x rest ih =>
    obtain ⟨f, k, hx, h2, h3⟩ := h x (List.mem_cons_self x rest)
    subst hx
    exact ih (fun t ht => h t (List.mem_cons_of_mem _ ht))

/-- `add_task` on a well-formed document, seen from the tool layer: some
task dict carrying the freshly generated id is appended to
`current_tasks`, and `last_updated` is refreshed. -/
theorem add_task_tool_effect (tau sigma : Nat → String) (sys : Sys)
    (u dsc pr due : String) (d m tt : List (String × JVal)) (cur : List JVal)
    (hdoc : storeGet sys.store (docId u) = some (jobj d))
    (htt : dlookup d "task_tracking" = some (jobj tt))
    (hcur : dlookup tt "current_tasks" = some (jarr cur))
    (hmd : dlookup d "metadata" = some (jobj m)) :
    ∃ newTask : List (String × JVal),
      dlookup newTask "task_id" = some (js ("task_" ++ sigma sys.clk)) ∧
      (add_task tau sigma sys u dsc pr due).map Prod.fst =
        some (Sys.mk (storeUpsert sys.store (docId u) (jobj
          (dinsert (dinsert d "task_tracking" (jobj (dinsert tt
            "current_tasks" (jarr (cur ++ [jobj newTask]))))) "metadata"
            (jobj (dinsert m "last_updated" (js (tau (sys.clk + 3))))))))
          (sys.clk + 4)) := by
  have heq := add_task_mem_effect tau (Sys.mk sys.store (sys.clk + 2)) u
    (if due ≠ "" && due.trim ≠ "" then
      dinsert [("task_id", js ("task_" ++ sigma sys.clk)),
        ("description", js dsc), ("priority", js pr),
        ("status", js "pending"), ("created_at", js (tau (sys.clk + 1)))]
        "due_date" (js due)
     else [("task_id", js ("task_" ++ sigma sys.clk)),
        ("description", js dsc), ("priority", js pr),
        ("status", js "pending"), ("created_at", js (tau (sys.clk + 1)))])
    d m tt cur hdoc htt hcur hmd
  refine ⟨dinsert (if due ≠ "" && due.trim ≠ "" then
      dinsert [("task_id", js ("task_" ++ sigma sys.clk)),
        ("description", js dsc), ("priority", js pr),
        ("status", js "pending"), ("created_at", js (tau (sys.clk + 1)))]
        "due_date" (js due)
     else [("task_id", js ("task_" ++ sigma sys.clk)),
        ("description", js dsc), ("priority", js pr),
        ("status", js "pending"), ("created_at", js (tau (sys.clk + 1)))])
    "last_activity" (js (tau (sys.clk + 2))), ?_, ?_⟩
  · rw [dlookup_dinsert, if_neg (by decide)]
    by_cases hdc : (decide (due ≠ "") && decide (due.trim ≠ "")) = true
    · rw [if_pos hdc, dlookup_dinsert, if_neg (by decide)]
      rfl
    · rw [if_neg hdc]
      rfl
  · simp only [add_task, heq, Option.map_some']

/-- `complete_task` at the tool layer when no task matches. -/
theorem complete_task_tool_not_found (tau : Nat → String) (sys : Sys)
    (u tid : String) (d tt : List (String × JVal)) (cur : List JVal)
    (hdoc : storeGet sys.store (docId u) = some (jobj d))
    (htt : dlookup d "task_tracking" = some (jobj tt))
    (hcur : dlookup tt "current_tasks" = some (jarr cur))
    (hok : taskListOk cur = true)
    (hno : cur.all (fun t => !matchesTid t tid) = true) :
    (complete_task tau sys u tid).map Prod.fst = some sys := by
  have hnf := complete_task_not_found tau sys u tid d tt cur hdoc htt hcur
    hok hno
  simp only [complete_task, hnf, Option.map_some']

/-- `complete_task` at the tool layer when the scan hits. -/
theorem complete_task_tool_found (tau : Nat → String) (sys : Sys)
    (u tid : String) (d m tt : List (String × JVal)) (comp : List JVal)
    (pre : List JVal) (tf : List (String × JVal)) (post : List JVal)
    (hdoc : storeGet sys.store (docId u) = some (jobj d))
    (htt : dlookup d "task_tracking" = some (jobj tt))
    (hcur : dlookup tt "current_tasks" = some (jarr (pre ++ jobj tf :: post)))
    (hcomp : dlookup tt "completed_tasks" = some (jarr comp))
    (hmd : dlookup d "metadata" = some (jobj m))
    (hokpre : taskListOk pre = true)
    (hno : pre.all (fun t => !matchesTid t tid) = true)
    (hm : matchesTid (jobj tf) tid = true) :
    (complete_task tau sys u tid).map Prod.fst =
      some (Sys.mk (storeUpsert sys.store (docId u) (jobj
        (dinsert (dinsert d "task_tracking" (jobj
          (dinsert (dinsert tt "current_tasks" (jarr (pre ++ post)))
            "completed_tasks" (jarr (comp ++ [jobj (dinsert (dinsert tf
              "completed_on" (js (tau sys.clk))) "status"
              (js "completed"))])))))
          "metadata" (jobj (dinsert m "last_updated"
            (js (tau (sys.clk + 1))))))))
        (sys.clk + 2)) := by
  have hfd := complete_task_found tau sys u tid d m tt comp pre tf post
    hdoc htt hcur hcomp hmd hokpre hno hm
  simp only [complete_task, hfd, Option.map_some']

/-- One task operation keeps the task-id invariant. -/
theorem runTaskOp_step (tau sigma : Nat → String) (u : String)
    (op : EngineOp) (sys : Sys) (hinj : Function.Injective sigma)
    (hop : isTaskOp op = true) (hinv : TaskInv sigma u sys) :
    ∃ sys1 : Sys, runOp tau sigma u op sys = some sys1 ∧
      TaskInv sigma u sys1 := by
  obtain ⟨d, m, tt, cur, comp, hdoc, hmd, htt, hcur, hcomp, hfc, hfp, hnd⟩ :=
    hinv
  cases op with
  | upd sect dta => simp [isTaskOp] at hop
  | streaks st => simp [isTaskOp] at hop
  | habit c i => simp [isTaskOp] at hop
  | addT dsc pr due =>
    obtain ⟨newTask, htid, htool⟩ := add_task_tool_effect tau sigma sys u
      dsc pr due d m tt cur hdoc htt hcur hmd
    refine ⟨_, htool, ?_⟩
    refine ⟨dinsert (dinsert d "task_tracking" (jobj (dinsert tt
        "current_tasks" (jarr (cur ++ [jobj newTask]))))) "metadata"
        (jobj (dinsert m "last_updated" (js (tau (sys.clk + 3))))),
      dinsert m "last_updated" (js (tau (sys.clk + 3))),
      dinsert tt "current_tasks" (jarr (cur ++ [jobj newTask])),
      cur ++ [jobj newTask], comp,
      storeGet_upsert_same _ _ _, ?_, ?_, ?_, ?_, ?_, ?_, ?_⟩
    · rw [dlookup_dinsert, if_pos rfl]
    · rw [dlookup_dinsert, if_neg (by decide), dlookup_dinsert, if_pos rfl]
    · rw [dlookup_dinsert, if_pos rfl]
    · rw [dlookup_dinsert, if_neg (by decide)]
      exact hcomp
    · intro t ht
      rcases List.mem_append.mp ht with h | h
      · obtain ⟨f, k, h1, h2, h3⟩ := hfc t h
        exact ⟨f, k, h1, h2, show k < sys.clk + 4 by omega⟩
      · rw [List.mem_singleton] at h
        subst h
        exact ⟨newTask, sys.clk, rfl, htid, show sys.clk < sys.clk + 4 by omega⟩
    · exact tasksFrom_mono sigma sys.clk _ comp
        (show sys.clk ≤ sys.clk + 4 by omega) hfp
    · have hids : idsOf (cur ++ [jobj newTask])
          = idsOf cur ++ ["task_" ++ sigma sys.clk] := by
        rw [idsOf_append, idsOf_cons_task newTask _ [] htid]
        rfl
      have hnotmem : "task_" ++ sigma sys.clk ∉ idsOf cur ++ idsOf comp := by
        intro hmem
        have hex : ∃ k : Nat, k < sys.clk ∧
            "task_" ++ sigma sys.clk = "task_" ++ sigma k := by
          rcases List.mem_append.mp hmem with h | h
          · obtain ⟨k, hk, hkeq⟩ :=
              mem_idsOf_of_tasksFrom sigma sys.clk cur _ hfc h
            exact ⟨k, hk, hkeq⟩
          · obtain ⟨k, hk, hkeq⟩ :=
              mem_idsOf_of_tasksFrom sigma sys.clk comp _ hfp h
            exact ⟨k, hk, hkeq⟩
        obtain ⟨k, hk, hkeq⟩ := hex
        have := hinj (task_prefix_cancel _ _ hkeq)
        omega
      rw [hids]
      have hperm : List.Perm ((idsOf cur ++ ["task_" ++ sigma sys.clk])
          ++ idsOf comp)
          (("task_" ++ sigma sys.clk) :: (idsOf cur ++ idsOf comp)) := by
        rw [List.append_assoc]
        exact List.perm_middle
      exact hperm.symm.nodup (List.nodup_cons.mpr ⟨hnotmem, hnd⟩)
  | compT tid =>
    have hok := taskListOk_of_TasksFrom sigma sys.clk cur hfc
    cases hany : cur.any (fun t => matchesTid t tid) with
    | false =>
      have hno : cur.all (fun t => !matchesTid t tid) = true := by
        rw [List.all_eq_true]
        intro x hx
        rw [Bool.not_eq_true']
        exact Bool.eq_false_iff.mpr (List.any_eq_false.mp hany x hx)
      exact ⟨sys, complete_task_tool_not_found tau sys u tid d tt cur hdoc
        htt hcur hok hno,
        d, m, tt, cur, comp, hdoc, hmd, htt, hcur, hcomp, hfc, hfp, hnd⟩
    | true =>
      obtain ⟨pre, tf, post, hdec, hokp, hnop, hmt⟩ :=
        exists_first_match cur tid hok hany
      subst hdec
      have htool := complete_task_tool_found tau sys u tid d m tt comp pre tf
        post hdoc htt hcur hcomp hmd hokp hnop hmt
      have hm_tf : jobj tf ∈ pre ++ jobj tf :: post :=
        List.mem_append.mpr (Or.inr (List.mem_cons_self _ _))
      obtain ⟨f0, k0, hfeq, hf0id, hk0⟩ := hfc _ hm_tf
      injection hfeq with hfeq2
      subst hfeq2
      have htdid : dlookup (dinsert (dinsert tf "completed_on"
          (js (tau sys.clk))) "status" (js "completed")) "task_id"
          = some (js ("task_" ++ sigma k0)) := by
        rw [dlookup_dinsert, if_neg (by decide), dlookup_dinsert,
          if_neg (by decide)]
        exact hf0id
      refine ⟨_, htool, ?_⟩
      refine ⟨dinsert (dinsert d "task_tracking" (jobj
          (dinsert (dinsert tt "current_tasks" (jarr (pre ++ post)))
            "completed_tasks" (jarr (comp ++ [jobj (dinsert (dinsert tf
              "completed_on" (js (tau sys.clk))) "status"
              (js "completed"))]))))) "metadata"
          (jobj (dinsert m "last_updated" (js (tau (sys.clk + 1))))),
        dinsert m "last_updated" (js (tau (sys.clk + 1))),
        dinsert (dinsert tt "current_tasks" (jarr (pre ++ post)))
          "completed_tasks" (jarr (comp ++ [jobj (dinsert (dinsert tf
            "completed_on" (js (tau sys.clk))) "status" (js "completed"))])),
        pre ++ post,
        comp ++ [jobj (dinsert (dinsert tf "completed_on" (js (tau sys.clk)))
          "status" (js "completed"))],
        storeGet_upsert_same _ _ _, ?_, ?_, ?_, ?_, ?_, ?_, ?_⟩
      · rw [dlookup_dinsert, if_pos rfl]
      · rw [dlookup_dinsert, if_neg (by decide), dlookup_dinsert, if_pos rfl]
      · rw [dlookup_dinsert, if_neg (by decide), dlookup_dinsert, if_pos rfl]
      · rw [dlookup_dinsert, if_pos rfl]
      · refine tasksFrom_mono sigma sys.clk _ _
          (show sys.clk ≤ sys.clk + 2 by omega) ?_
        refine tasksFrom_sub sigma sys.clk _ _ ?_ hfc
        intro t ht
        rcases List.mem_append.mp ht with h | h
        · exact List.mem_append.mpr (Or.inl h)
        · exact List.mem_append.mpr (Or.inr (List.mem_cons_of_mem _ h))
      · intro t ht
        rcases List.mem_append.mp ht with h | h
        · obtain ⟨f, k, h1, h2, h3⟩ := hfp t h
          exact ⟨f, k, h1, h2, show k < sys.clk + 2 by omega⟩
        · rw [List.mem_singleton] at h
          subst h
          exact ⟨_, k0, rfl, htdid, show k0 < sys.clk + 2 by omega⟩
      · have hidcur : idsOf (pre ++ jobj tf :: post)
            = idsOf pre ++ (("task_" ++ sigma k0) :: idsOf post) := by
          rw [idsOf_append, idsOf_cons_task tf _ post hf0id]
        have hidone : idsOf [jobj (dinsert (dinsert tf "completed_on"
            (js (tau sys.clk))) "status" (js "completed"))]
            = ["task_" ++ sigma k0] := by
          rw [idsOf_cons_task _ _ [] htdid]
          rfl
        rw [hidcur] at hnd
        rw [idsOf_append, idsOf_append, hidone]
        have h1 : List.Perm ((idsOf pre ++ (("task_" ++ sigma k0) ::
            idsOf post)) ++ idsOf comp)
            (("task_" ++ sigma k0) :: ((idsOf pre ++ idsOf post)
              ++ idsOf comp)) :=
          List.Perm.append_right (idsOf comp) List.perm_middle
        have h2 : List.Perm ((idsOf pre ++ idsOf post) ++ (idsOf comp
            ++ ["task_" ++ sigma k0]))
            (("task_" ++ sigma k0) :: ((idsOf pre ++ idsOf post)
              ++ idsOf comp)) :=
          (List.Perm.append_left (idsOf pre ++ idsOf post)
            List.perm_append_comm).trans List.perm_middle
        exact (h1.trans h2.symm).nodup hnd

/-- A whole sequence of task operations keeps the task-id invariant and
never gets stuck. -/
theorem runTaskOps_inv (tau sigma : Nat → String) (u : String)
    (hinj : Function.Injective sigma) (ops : List EngineOp) (sys : Sys)
    (hops : ops.all isTaskOp = true) (hinv : TaskInv sigma u sys) :
    ∃ sys2 : Sys, runOps tau sigma u ops sys = some sys2 ∧
      TaskInv sigma u sys2 := by
  induction ops generalizing sys with
  | nil => exact ⟨sys, rfl, hinv⟩
  | cons op rest ih =>
    simp only [List.all_cons, Bool.and_eq_true] at hops
    obtain ⟨sys1, hrun, hinv1⟩ := runTaskOp_step tau sigma u op sys hinj
      hops.1 hinv
    obtain ⟨sys2, hruns, hinv2⟩ := ih sys1 hops.2 hinv1
    exact ⟨sys2, by simp only [runOps, hrun, hruns], hinv2⟩

/-- Initializing a fresh user establishes the task-id invariant. -/
theorem initialize_TaskInv (tau sigma : Nat → String) (u : String) (sys : Sys)
    (habs : storeGet sys.store (docId u) = none) :
    ∃ sys1 : Sys, initialize_user_schema tau sys u none = some (sys1, true) ∧
      TaskInv sigma u sys1 := by
  have h1 : dlookup (default_schema (tau sys.clk) (tau (sys.clk + 1)))
      "metadata" = some (jobj [("created_at", js (tau sys.clk)),
        ("last_updated", js (tau (sys.clk + 1))), ("version", jn 1)]) := rfl
  refine ⟨Sys.mk (storeUpsert sys.store (docId u)
      (jobj (dinsert (default_schema (tau sys.clk) (tau (sys.clk + 1)))
        "metadata" (jobj (dinsert [("created_at", js (tau sys.clk)),
          ("last_updated", js (tau (sys.clk + 1))), ("version", jn 1)]
          "last_updated" (js (tau (sys.clk + 2))))))))
      (sys.clk + 3), ?_, ?_⟩
  · simp only [initialize_user_schema, h1, habs]
  · refine ⟨_, dinsert [("created_at", js (tau sys.clk)),
        ("last_updated", js (tau (sys.clk + 1))), ("version", jn 1)]
        "last_updated" (js (tau (sys.clk + 2))),
      [("current_tasks", jarr []), ("completed_tasks", jarr [])], [], [],
      storeGet_upsert_same _ _ _, ?_, ?_, rfl, rfl, ?_, ?_, ?_⟩
    · rfl
    · rfl
    · intro t ht
      cases ht
    · intro t ht
      cases ht
    · exact List.nodup_nil

/-- C5 amended: starting from a user initialized on a store with no
document for them, any sequence of `addTask`/`completeTask` operations
keeps every `task_id` unique across `current_tasks` and `completed_tasks`
(hence unique among `current_tasks` at each insertion, and never present
in both lists), provided distinct clock ticks render to distinct
`strftime` strings — the id-collision guard the code itself lacks. -/
theorem addTask_ids_unique_when_injective (tau sigma : Nat → String)
    (u : String) (ops : List EngineOp) (sys0 : Sys)
    (hinj : Function.Injective sigma)
    (hops : ops.all isTaskOp = true)
    (habs : storeGet sys0.store (docId u) = none) :
    ∃ (sys1 sys2 : Sys) (cur comp : List JVal),
      initialize_user_schema tau sys0 u none = some (sys1, true) ∧
      runOps tau sigma u ops sys1 = some sys2 ∧
      currentTasksOf sys2 u = some cur ∧
      completedTasksOf sys2 u = some comp ∧
      (idsOf cur ++ idsOf comp).Nodup ∧
      (∀ s ∈ idsOf cur, s ∉ idsOf comp) := by
  obtain ⟨sys1, hinit, hinv⟩ := initialize_TaskInv tau sigma u sys0 habs
  obtain ⟨sys2, hruns, hinv2⟩ := runTaskOps_inv tau sigma u hinj ops sys1
    hops hinv
  obtain ⟨d, m, tt, cur, comp, hdoc, hmd, htt, hcur, hcomp, hfc, hfp, hnd⟩ :=
    hinv2
  refine ⟨sys1, sys2, cur, comp, hinit, hruns, ?_, ?_, hnd, ?_⟩
  · simp only [currentTasksOf, docField, storedDoc, hdoc, htt, hcur]
  · simp only [completedTasksOf, docField, storedDoc, hdoc, htt, hcomp]
  · intro s hs hs2
    rcases List.nodup_append.mp hnd with ⟨h1, h2, hdisj⟩
    exact hdisj hs hs2

/-- Witness for C5 (amended) with the letter-count oracle and a two-step
operation sequence. -/
theorem addTask_ids_unique_when_injective_witness :
    Function.Injective aRun ∧
    ([EngineOp.addT "Write report" "high" "",
      EngineOp.compT "nope"].all isTaskOp = true) ∧
    storeGet (Sys.mk [] 0).store (docId "Chris") = none ∧
    (∃ (sys1 sys2 : Sys) (cur comp : List JVal),
      initialize_user_schema tickName (Sys.mk [] 0) "Chris" none
        = some (sys1, true) ∧
      runOps tickName aRun "Chris"
        [EngineOp.addT "Write report" "high" "", EngineOp.compT "nope"] sys1
        = some sys2 ∧
      currentTasksOf sys2 "Chris" = some cur ∧
      completedTasksOf sys2 "Chris" = some comp ∧
      (idsOf cur ++ idsOf comp).Nodup ∧
      (∀ s ∈ idsOf cur, s ∉ idsOf comp)) :=
  ⟨aRun_injective, rfl, rfl,
   addTask_ids_unique_when_injective tickName aRun "Chris"
    [EngineOp.addT "Write report" "high" "", EngineOp.compT "nope"]
    (Sys.mk [] 0) aRun_injective rfl rfl⟩

/-- C5 counterexample: with the second-resolution id scheme, two `addTask`
calls inside the same rendered tick produce the same `task_id` twice in
`current_tasks` — the code has no collision guard. -/
theorem addTask_id_collision_cex :
    ((initThenOps tickName (fun _ => "20250706_120000") "Chris"
        [EngineOp.addT "A" "high" "", EngineOp.addT "B" "high" ""]
        (Sys.mk [] 0)).map
      (fun s2 => (currentTasksOf s2 "Chris").map idsOf))
      = some (some ["task_20250706_120000", "task_20250706_120000"]) ∧
    ¬ (["task_20250706_120000", "task_20250706_120000"] :
        List String).Nodup := by
  constructor
  · rfl
  · decide
